import Mathlib

/-
Verification of the scaffold-conversion script (scripts/setupTypeScript.js)
and its companion bundler configuration (rollup.config.js).

Texts are modelled as `List Char`.  JavaScript's
`String.prototype.replace(searchString, replacementString)` replaces the
first occurrence of the search string (none of the replacement strings used
by the script contain `$`, so no substitution patterns apply); it is
modelled by `replaceFirst` below.
-/

/-- JS `s.replace(pat, rep)` for string arguments: replace the first
occurrence of `pat` in `s` by `rep`; if `pat` does not occur, return `s`
unchanged. -/

def replaceFirst (pat rep : List Char) : List Char → List Char
  | [] => if pat = [] then rep else []
  | c :: cs =>
    if pat.isPrefixOf (c :: cs) then rep ++ (c :: cs).drop pat.length
    else c :: replaceFirst pat rep cs

/-- The anchor `'rollup-plugin-css-only';` (end of the css import line in
rollup.config.js). -/
def cssOnlyAnchor : List Char := ("'rollup-plugin-css-only';").data

/-- The replacement for `cssOnlyAnchor`: the anchor followed by the two
new import lines (setupTypeScript.js lines 97-99). -/
def cssOnlyReplacement : List Char :=
  ("'rollup-plugin-css-only';\nimport sveltePreprocess from 'svelte-preprocess';\nimport typescript from '@rollup/plugin-typescript';").data

/-- The entry-point anchor `'src/main.js'` (setupTypeScript.js line 103). -/
def mainJsEntry : List Char := ("'src/main.js'").data

/-- The replacement entry point `'src/main.ts'`. -/
def mainTsEntry : List Char := ("'src/main.ts'").data

/-- The anchor `compilerOptions:` (setupTypeScript.js line 108). -/
def compilerOptionsAnchor : List Char := ("compilerOptions:").data

/-- The replacement for `compilerOptionsAnchor`: the preprocessor line
inserted before the anchor (setupTypeScript.js line 109). -/
def compilerOptionsReplacement : List Char :=
  ("preprocess: sveltePreprocess(\x7b sourceMap: !production \x7d),\n\t\t\tcompilerOptions:").data

/-- The anchor `commonjs(),` (setupTypeScript.js line 115). -/
def commonjsAnchor : List Char := ("commonjs(),").data

/-- The replacement for `commonjsAnchor`: the anchor followed by the
typescript plugin invocation (setupTypeScript.js line 116). -/
def commonjsReplacement : List Char :=
  ("commonjs(),\n\t\ttypescript(\x7b\n\t\t\tsourceMap: !production,\n\t\t\tinlineSources: !production\n\t\t\x7d),").data

/-- The four in-memory edits applied to the text of rollup.config.js
(setupTypeScript.js lines 96-117), in source order. -/
def rollupConfigTransform (rollupConfig : List Char) : List Char :=
  replaceFirst commonjsAnchor commonjsReplacement
    (replaceFirst compilerOptionsAnchor compilerOptionsReplacement
      (replaceFirst mainJsEntry mainTsEntry
        (replaceFirst cssOnlyAnchor cssOnlyReplacement rollupConfig)))

/-- The `<script>` tag searched in App.svelte (setupTypeScript.js line 80). -/
def scriptTagOld : List Char := ("<script>").data

/-- The typed `<script lang="ts">` tag written in its place. -/
def scriptTagNew : List Char := ("<script lang=\"ts\">").data

/-- The declaration `export let name;` searched in App.svelte
(setupTypeScript.js line 83). -/
def exportLetOld : List Char := ("export let name;").data

/-- The annotated declaration `export let name: string;` written in its
place. -/
def exportLetNew : List Char := ("export let name: string;").data

/-- The two in-memory edits applied to the text of App.svelte
(setupTypeScript.js lines 80-83), in source order. -/
def appFileTransform (appFile : List Char) : List Char :=
  replaceFirst exportLetOld exportLetNew
    (replaceFirst scriptTagOld scriptTagNew appFile)

/-- `ReplFirst pat rep s r`: `r` is `s` with the first occurrence of `pat`
replaced by `rep`; the decomposition witnesses where the replacement
happened and that no occurrence of `pat` starts earlier. -/
def ReplFirst (pat rep s r : List Char) : Prop :=
  ∃ a b, s = a ++ pat ++ b ∧ r = a ++ rep ++ b ∧
    ∀ a' b', s = a' ++ pat ++ b' → a.length ≤ a'.length

/-- Side condition for preserving an occurrence of `q` through an edit that
keeps `pat` and everything after it in place: no nonempty proper initial
segment of `q` can end an occurrence of (a text ending in) `pat`. -/
def TakeFreeOf (q pat : List Char) : Prop :=
  ∀ k, 0 < k → k < q.length →
    ¬ ((q.take k) <:+ pat) ∧ ¬ (pat <:+ (q.take k))

instance (q pat : List Char) : Decidable (TakeFreeOf q pat) :=
  decidable_of_iff
    (∀ k, k < q.length → 0 < k →
      ¬ ((q.take k) <:+ pat) ∧ ¬ (pat <:+ (q.take k)))
    (by constructor <;> (intro h k h1 h2; exact h k h2 h1))

/-- Side condition for preserving an occurrence of `q` through an edit that
keeps `pat` and everything before it in place: no nonempty proper final
segment of `q` can start an occurrence of (a text starting with) `pat`. -/
def DropFreeOf (q pat : List Char) : Prop :=
  ∀ k, 0 < k → k < q.length →
    ¬ ((q.drop k) <+: pat) ∧ ¬ (pat <+: (q.drop k))

instance (q pat : List Char) : Decidable (DropFreeOf q pat) :=
  decidable_of_iff
    (∀ k, k < q.length → 0 < k →
      ¬ ((q.drop k) <+: pat) ∧ ¬ (pat <+: (q.drop k)))
    (by constructor <;> (intro h k h1 h2; exact h k h2 h1))

/-- The part of `mainJsEntry` before its distinguishing character. -/
def entryCore : List Char := ("'src/main.").data

/-- The part of `mainJsEntry` after its distinguishing character. -/
def entryTail : List Char := ("s'").data

/-- The two import lines inserted after `cssOnlyAnchor`. -/
def importLinesInserted : List Char :=
  ("\nimport sveltePreprocess from 'svelte-preprocess';\nimport typescript from '@rollup/plugin-typescript';").data

/-- The preprocessor line inserted before `compilerOptionsAnchor`. -/
def preprocessInserted : List Char :=
  ("preprocess: sveltePreprocess(\x7b sourceMap: !production \x7d),\n\t\t\t").data

/-- The typescript plugin invocation inserted after `commonjsAnchor`. -/
def typescriptPluginInserted : List Char :=
  ("\n\t\ttypescript(\x7b\n\t\t\tsourceMap: !production,\n\t\t\tinlineSources: !production\n\t\t\x7d),").data

/-- A concrete bundler configuration text containing the four anchors, as
in rollup.config.js. -/
def rollupSample : List Char :=
  ("import css from 'rollup-plugin-css-only';\n\nexport default \x7b\n\tinput: 'src/main.js',\n\tplugins: [\n\t\tsvelte(\x7b\n\t\t\tcompilerOptions: \x7b\n\t\t\t\tdev: !production\n\t\t\t\x7d\n\t\t\x7d),\n\t\tcommonjs(),\n\t],\n\x7d;\n").data

/-- Number of positions at which `pat` occurs in `s` (a tail of `s` having
`pat` as an initial segment). -/
def occCount (pat s : List Char) : Nat :=
  (s.tails.filter (fun u => pat.isPrefixOf u)).length

/-- `q` has no nontrivial self-overlap: no proper nonempty final segment of
`q` is also an initial segment of `q`. -/
def SelfOverlapFreeStr (q : List Char) : Prop :=
  ∀ k, 0 < k → k < q.length → ¬ ((q.drop k) <+: q)

instance (q : List Char) : Decidable (SelfOverlapFreeStr q) :=
  decidable_of_iff
    (∀ k, k < q.length → 0 < k → ¬ ((q.drop k) <+: q))
    (by constructor <;> (intro h k h1 h2; exact h k h2 h1))

/-- `q` cannot overlap `pat` at any relative offset: neither contains the
other, no nonempty initial segment of `q` ends `pat`, and no nonempty
final segment of `q` starts `pat`. -/
def CannotOverlap (q pat : List Char) : Prop :=
  ¬ (q <:+: pat) ∧ ¬ (pat <:+: q) ∧
  ∀ k, 0 < k → k < q.length →
    ¬ ((q.take k) <:+ pat) ∧ ¬ ((q.drop k) <+: pat)

instance (q pat : List Char) : Decidable (CannotOverlap q pat) :=
  decidable_of_iff
    (¬ (q <:+: pat) ∧ ¬ (pat <:+: q) ∧
      ∀ k, k < q.length → 0 < k →
        ¬ ((q.take k) <:+ pat) ∧ ¬ ((q.drop k) <+: pat))
    (by
      unfold CannotOverlap
      constructor
      · rintro ⟨h1, h2, h3⟩; exact ⟨h1, h2, fun k hk1 hk2 => h3 k hk2 hk1⟩
      · rintro ⟨h1, h2, h3⟩; exact ⟨h1, h2, fun k hk1 hk2 => h3 k hk2 hk1⟩)

/-- A concrete component file text without the two searched substrings. -/
def appPlainSample : List Char :=
  ("<main>\n\t<h1>Hello world!</h1>\n</main>\n").data

/-- A component file text which contains `<script>` and `export let name;`
but also already contains a `<script lang="ts">` tag. -/
def appPreTypedSample : List Char :=
  ("<script lang=\"ts\"></script>\n<script>export let name;</script>\n").data

/-- The root component file text of the starter template (src/App.svelte
essentials). -/
def appFileSample : List Char :=
  ("<script>\n\texport let name;\n</script>\n\n<main>\n\t<h1>Hello \x7bname\x7d!</h1>\n</main>\n").data

/-- JS property assignment `target[k] = v` on an object represented as an
ordered member list: an existing key keeps its position and receives the
new value, a fresh key is appended at the end. -/
def setKey {α β : Type} [BEq α] (m : List (α × β)) (k : α) (v : β) :
    List (α × β) :=
  if m.any (fun p => p.1 == k) then
    m.map (fun p => if p.1 == k then (k, v) else p)
  else m ++ [(k, v)]

/-- JS `Object.assign(target, source)`: assign every member of `source`
onto `target`, in source order. -/
def objAssign {α β : Type} [BEq α] (target source : List (α × β)) :
    List (α × β) :=
  source.foldl (fun m kv => setKey m kv.1 kv.2) target

/-- The parsed manifest (package.json): its `devDependencies` and
`scripts` members when present (`none` models a JSON object lacking the
member, i.e. JS `undefined`), and all remaining top-level members with
their values kept opaque. -/
structure PackageJSON where
  devDependencies : Option (List (String × String))
  scripts : Option (List (String × String))
  otherFields : List (String × String)
deriving DecidableEq

/-- The six devDependency entries assigned by setupTypeScript.js lines
43-50, in source order. -/
def fixedDevDependencies : List (String × String) :=
  [("svelte-check", "^3.0.0"),
   ("svelte-preprocess", "^5.0.0"),
   ("@rollup/plugin-typescript", "^11.0.0"),
   ("typescript", "^4.9.0"),
   ("tslib", "^2.5.0"),
   ("@tsconfig/svelte", "^3.0.0")]

/-- The `check` script entry assigned by setupTypeScript.js lines 54-56. -/
def checkScriptEntry : List (String × String) := [("check", "svelte-check")]

/-- The TypeError message of `Object.assign(undefined, ...)`. -/
def assignUndefinedError : String :=
  "TypeError: Cannot convert undefined or null to object"

/-- The manifest merge of setupTypeScript.js lines 43-56:
`Object.assign(packageJSON.devDependencies, {...six entries...})` followed
by `Object.assign(packageJSON.scripts, {check: "svelte-check"})`.  When
`devDependencies` or `scripts` is absent, `Object.assign(undefined, ...)`
throws a TypeError, aborting the script before anything is written (the
in-memory mutation order does not matter because nothing observes it). -/
def mergePackageJSON (p : PackageJSON) : Except String PackageJSON :=
  match p.devDependencies with
  | none => .error assignUndefinedError
  | some dd =>
    match p.scripts with
    | none => .error assignUndefinedError
    | some sc =>
      .ok { devDependencies := some (objAssign dd fixedDevDependencies),
            scripts := some (objAssign sc checkScriptEntry),
            otherFields := p.otherFields }

/-- A concrete manifest with pre-existing unrelated keys and a
pre-existing `typescript` devDependency and `check` script to be
overwritten. -/
def manifestSample : PackageJSON :=
  { devDependencies := [("svelte", "^4.2.0"), ("typescript", "^3.0.0")],
    scripts := [("build", "rollup -c"), ("check", "old-check")],
    otherFields := [("name", "svelte-app"), ("version", "1.0.0")] }

/-- A file's content: an uninterpreted text, or a manifest file whose
valid-JSON content is kept in parsed form (the script parses only the
manifest; serializing the merged manifest and re-parsing it is the
identity, so the manifest is stored structurally). -/
inductive FileData where
  | text : List Char → FileData
  | manifest : PackageJSON → FileData
deriving DecidableEq

/-- The filesystem: files keyed by path (a list of path segments below an
abstract root) and the set of directories. -/
structure FS where
  files : List (List String × FileData)
  dirs : List (List String)
deriving DecidableEq

/-- Node `fs.readFileSync`: fails (ENOENT) when the path is absent. -/
def readFileSync (fs : FS) (p : List String) : Except String FileData :=
  match fs.files.lookup p with
  | some d => .ok d
  | none => .error "ENOENT"

/-- Node `fs.writeFileSync`: creates or overwrites the file. -/
def writeFileSync (fs : FS) (p : List String) (d : FileData) : FS :=
  { fs with files := setKey fs.files p d }

/-- Node `fs.renameSync`, with POSIX `rename(2)` semantics (as on Linux,
and as libuv provides on the other platforms for files): fails (ENOENT)
when the source is absent; an existing destination is silently replaced. -/
def renameSync (fs : FS) (src dst : List String) : Except String FS :=
  match fs.files.lookup src with
  | none => .error "ENOENT"
  | some d =>
    .ok { fs with
      files := setKey (fs.files.filter (fun q => ! (q.1 == src))) dst d }

/-- Node `fs.unlinkSync`: fails (ENOENT) when the path is absent. -/
def unlinkSync (fs : FS) (p : List String) : Except String FS :=
  if (fs.files.lookup p).isSome then
    .ok { fs with files := fs.files.filter (fun q => ! (q.1 == p)) }
  else .error "ENOENT"

/-- The name under which `p` is a direct child of directory `dir`, if it
is one. -/
def childName? (dir p : List String) : Option String :=
  match p.getLast? with
  | some n => if p.dropLast = dir then some n else none
  | none => none

/-- The names of the entries directly inside `dir`. -/
def dirEntries (fs : FS) (dir : List String) : List String :=
  (fs.files.map Prod.fst ++ fs.dirs).filterMap (childName? dir)

/-- Node `fs.readdirSync`: the entry names of a directory; fails when the
directory does not exist. -/
def readdirSync (fs : FS) (dir : List String) : Except String (List String) :=
  if dir ∈ fs.dirs then .ok (dirEntries fs dir) else .error "ENOENT"

/-- Node `fs.rmdirSync`: fails when the directory is absent or not empty. -/
def rmdirSync (fs : FS) (dir : List String) : Except String FS :=
  if dir ∈ fs.dirs then
    if dirEntries fs dir = [] then
      .ok { fs with dirs := fs.dirs.filter (fun d => ! (d == dir)) }
    else .error "ENOTEMPTY"
  else .error "ENOENT"

/-- Node `fs.mkdirSync` with `recursive: true`: creates the directory and
any missing ancestors, without error when already present. -/
def mkdirSyncRec (fs : FS) (dir : List String) : FS :=
  { fs with dirs := fs.dirs ++
      (((List.range dir.length).map (fun i => dir.take (i + 1))).filter
        (fun d => ! fs.dirs.contains d)) }

/-- Node `fs.existsSync` on a path. -/
def existsSync (fs : FS) (p : List String) : Bool :=
  (fs.files.lookup p).isSome || fs.dirs.contains p

/-- The ambient invocation state of the script: the optional explicit
target-directory argument `argv[2]`, the directory containing the script
(`__dirname`), and the script file's own name (`__filename` is
`scriptDir ++ [scriptName]`). -/
structure Config where
  argvTarget : Option (List String)
  scriptDir : List String
  scriptName : String
deriving DecidableEq

/-- `projectRoot = argv[2] || path.join(__dirname, "..")`
(setupTypeScript.js line 36). -/
def projectRoot (cfg : Config) : List String :=
  match cfg.argvTarget with
  | some r => r
  | none => cfg.scriptDir.dropLast

/-- The content written to `tsconfig.json` (lines 124-135). -/
def tsconfigContent : List Char :=
  ("\x7b\n  \"extends\": \"@tsconfig/svelte/tsconfig.json\",\n\n  \"include\": [\"src/**/*\"],\n  \"exclude\": [\"node_modules/*\", \"__sapper__/*\", \"public/*\"]\n\x7d").data

/-- The content written to `svelte.config.js` (lines 139-151). -/
def svelteConfigContent : List Char :=
  ("import sveltePreprocess from 'svelte-preprocess';\n\nexport default \x7b\n  preprocess: sveltePreprocess()\n\x7d;\n").data

/-- The single reference line written to `src/global.d.ts` (line 157). -/
def globalDtsContent : List Char :=
  ("/// <reference types=\"svelte\" />").data

/-- The content written to `.vscode/extensions.json` (lines 187-190). -/
def extensionsJsonContent : List Char :=
  ("\x7b\n  \"recommendations\": [\"svelte.svelte-vscode\"]\n\x7d\n").data

/-- The self-deletion branch (setupTypeScript.js lines 161-181), reached
only when no explicit target argument was given: delete the script's own
file; if exactly one entry remains in the script directory and it is
named `.DS_store`, delete it too; if the script directory is then empty,
remove the directory.  Any failure propagates, leaving the filesystem as
mutated so far. -/
def selfDelete (cfg : Config) (fs : FS) : Option String × FS :=
  match unlinkSync fs (cfg.scriptDir ++ [cfg.scriptName]) with
  | .error e => (some e, fs)
  | .ok fs1 =>
    match readdirSync fs1 cfg.scriptDir with
    | .error e => (some e, fs1)
    | .ok remaining =>
      match
        (if remaining.length = 1 ∧ remaining.head? = some ".DS_store" then
          match unlinkSync fs1 (cfg.scriptDir ++ [".DS_store"]) with
          | .error e => (some e, fs1)
          | .ok fs2 => (none, fs2)
        else (none, fs1) : Option String × FS) with
      | (some e, fsx) => (some e, fsx)
      | (none, fs2) =>
        match readdirSync fs2 cfg.scriptDir with
        | .error e => (some e, fs2)
        | .ok remaining2 =>
          if remaining2.length = 0 then
            match rmdirSync fs2 cfg.scriptDir with
            | .error e => (some e, fs2)
            | .ok fs3 => (none, fs3)
          else (none, fs2)

/-- One full run of setupTypeScript.js on filesystem `fs`: the script's
step sequence in source order.  The first error aborts the run, returning
the error together with the filesystem as already mutated by the earlier
steps (the script has no rollback). -/
def setupTypeScript (cfg : Config) (fs : FS) : Option String × FS :=
  let root := projectRoot cfg
  match readFileSync fs (root ++ ["package.json"]) with
  | .error e => (some e, fs)
  | .ok (.text _) => (some "SyntaxError: package.json is not valid JSON", fs)
  | .ok (.manifest p) =>
    match mergePackageJSON p with
    | .error e => (some e, fs)
    | .ok p' =>
      let fs1 := writeFileSync fs (root ++ ["package.json"]) (.manifest p')
      match renameSync fs1 (root ++ ["src", "main.js"])
          (root ++ ["src", "main.ts"]) with
      | .error e => (some e, fs1)
      | .ok fs2 =>
        match readFileSync fs2 (root ++ ["src", "App.svelte"]) with
        | .error e => (some e, fs2)
        | .ok (.manifest _) => (some "TypeError: App.svelte is not text", fs2)
        | .ok (.text app) =>
          let fs3 := writeFileSync fs2 (root ++ ["src", "App.svelte"])
            (.text (appFileTransform app))
          match readFileSync fs3 (root ++ ["rollup.config.js"]) with
          | .error e => (some e, fs3)
          | .ok (.manifest _) =>
            (some "TypeError: rollup.config.js is not text", fs3)
          | .ok (.text rollup) =>
            let fs4 := writeFileSync fs3 (root ++ ["rollup.config.js"])
              (.text (rollupConfigTransform rollup))
            let fs5 := writeFileSync fs4 (root ++ ["tsconfig.json"])
              (.text tsconfigContent)
            let fs6 := writeFileSync fs5 (root ++ ["svelte.config.js"])
              (.text svelteConfigContent)
            let fs7 := writeFileSync fs6 (root ++ ["src", "global.d.ts"])
              (.text globalDtsContent)
            match
              (match cfg.argvTarget with
                | some _ => (none, fs7)
                | none => selfDelete cfg fs7 : Option String × FS) with
            | (some e, fsx) => (some e, fsx)
            | (none, fs8) =>
              let fs9 := mkdirSyncRec fs8 (root ++ [".vscode"])
              let fs10 := writeFileSync fs9
                (root ++ [".vscode", "extensions.json"])
                (.text extensionsJsonContent)
              (none, fs10)

/-- A concrete starter-template filesystem (under root `app`) with the
script and an OS metadata file in `app/scripts`. -/
def templateFS : FS :=
  { files := [ (["app", "package.json"], .manifest manifestSample),
               (["app", "src", "main.js"],
                 .text ("import App from './App.svelte';").data),
               (["app", "src", "App.svelte"], .text appFileSample),
               (["app", "rollup.config.js"], .text rollupSample),
               (["app", "scripts", "setupTypeScript.js"],
                 .text ("// the script").data),
               (["app", "scripts", ".DS_store"], .text ("junk").data) ],
    dirs := [["app"], ["app", "src"], ["app", "scripts"]] }

/-- A manifest lacking the `scripts` member. -/
def manifestNoScripts : PackageJSON :=
  { devDependencies := some [("svelte", "^4.2.0")],
    scripts := none,
    otherFields := [("name", "svelte-app")] }

/-- A template filesystem in which the typed entry point `src/main.ts`
already exists before conversion. -/
def templateFSPreTs : FS :=
  { files := templateFS.files ++
      [(["app", "src", "main.ts"], .text ("stale content").data)],
    dirs := templateFS.dirs }

/-- A fixed invocation state: explicit target `app`, script located in
`app/scripts`. -/
def cfgTpl : Config := ⟨some ["app"], ["app", "scripts"], "setupTypeScript.js"⟩

/-- A fixed invocation state with no target argument: the script runs
in place from `app/scripts`. -/
def cfgNoArg : Config := ⟨none, ["app", "scripts"], "setupTypeScript.js"⟩

/-- The empty filesystem. -/
def fsEmpty : FS := { files := [], dirs := [] }

set_option maxRecDepth 40000

theorem prefixToInfix {x y : List Char} (h : x <+: y) : x <:+: y := h.isInfix

theorem suffixToInfix {x y : List Char} (h : x <:+ y) : x <:+: y := h.isInfix

theorem prefixBool {x y : List Char} : x.isPrefixOf y = true ↔ x <+: y :=
  List.isPrefixOf_iff_prefix

/-- If the search string does not occur, `replaceFirst` is the identity
(the silent no-op of JS `replace`). -/
theorem replaceFirst_no_match {pat rep s : List Char} (h : ¬ pat <:+: s) :
    replaceFirst pat rep s = s := by
  induction s with
  | nil =>
    have hne : pat ≠ [] := by
      intro he; exact h (he ▸ List.infix_rfl)
    simp [replaceFirst, hne]
  | cons c cs ih =>
    have h1 : ¬ pat <+: (c :: cs) := fun hp => h (prefixToInfix hp)
    have h2 : ¬ pat <:+: cs := fun hi => h (List.infix_cons_iff.mpr (Or.inr hi))
    have hb : pat.isPrefixOf (c :: cs) = false := by
      rw [Bool.eq_false_iff]
      intro hp; exact h1 (prefixBool.mp hp)
    simp [replaceFirst, hb, ih h2]

/-- If the search string occurs, `replaceFirst` replaces exactly its first
occurrence. -/
theorem replaceFirst_spec (rep : List Char) {pat s : List Char}
    (h : pat <:+: s) :
    ReplFirst pat rep s (replaceFirst pat rep s) := by
  induction s with
  | nil =>
    have he : pat = [] := List.eq_nil_of_infix_nil h
    subst he
    exact ⟨[], [], rfl, by simp [replaceFirst], fun a' b' _ => Nat.zero_le _⟩
  | cons c cs ih =>
    by_cases hp : pat <+: (c :: cs)
    · obtain ⟨t, ht⟩ := hp
      have hb : pat.isPrefixOf (c :: cs) = true := prefixBool.mpr ⟨t, ht⟩
      refine ⟨[], t, by simp [ht.symm], ?_, fun a' b' _ => Nat.zero_le _⟩
      have hd : (c :: cs).drop pat.length = t := by
        rw [← ht, List.drop_left]
      simp [replaceFirst, hb, hd]
    · have hb : pat.isPrefixOf (c :: cs) = false := by
        rw [Bool.eq_false_iff]
        intro hx; exact hp (prefixBool.mp hx)
      have h2 : pat <:+: cs := by
        rcases List.infix_cons_iff.mp h with hc | hc
        · exact absurd hc hp
        · exact hc
      obtain ⟨a, b, hs, hr, hmin⟩ := ih h2
      refine ⟨c :: a, b, by simp [hs], ?_, ?_⟩
      · simp [replaceFirst, hb, hr]
      · intro a' b' he
        cases a' with
        | nil =>
          exact absurd ⟨b', by simpa using he.symm⟩ hp
        | cons c' a'' =>
          have : cs = a'' ++ pat ++ b' := by
            simpa using congrArg List.tail he
          simpa using Nat.succ_le_succ (hmin a'' b' this)

/-- The length equation of a first-occurrence replacement. -/
theorem ReplFirst.length_eq {pat rep s r : List Char}
    (h : ReplFirst pat rep s r) :
    r.length + pat.length = s.length + rep.length := by
  obtain ⟨a, b, hs, hr, -⟩ := h
  subst hs; subst hr; simp; omega

/-- A replacement whose search and replacement strings have equal lengths
preserves the length of the text. -/
theorem replaceFirst_length_of_eq_length {pat rep s : List Char}
    (h : pat.length = rep.length) :
    (replaceFirst pat rep s).length = s.length := by
  by_cases ho : pat <:+: s
  · have := (replaceFirst_spec (rep) ho).length_eq
    omega
  · rw [replaceFirst_no_match ho]

/-- Decomposition of an occurrence across an append: an occurrence of `q`
in `x ++ y` lies in `x`, lies in `y`, or straddles the boundary. -/
theorem infix_append_split {q x y : List Char} (h : q <:+: x ++ y) :
    q <:+: x ∨ q <:+: y ∨
      ∃ u v, q = u ++ v ∧ u ≠ [] ∧ v ≠ [] ∧ u <:+ x ∧ v <+: y := by
  obtain ⟨s, t, hst⟩ := h
  rw [List.append_assoc] at hst
  rcases List.append_eq_append_iff.mp hst with ⟨a', hx, hqt⟩ | ⟨c', -, hy⟩
  · rcases List.append_eq_append_iff.mp hqt with ⟨a'', ha', -⟩ | ⟨c', hq, hy⟩
    · exact Or.inl ⟨s, a'', by rw [hx, ha', List.append_assoc]⟩
    · rcases eq_or_ne a' [] with rfl | hane
      · exact Or.inr (Or.inl ⟨[], t, by simp at hq; rw [hy, hq]; simp⟩)
      · rcases eq_or_ne c' [] with rfl | hcne
        · refine Or.inl ⟨s, [], ?_⟩
          simp at hq; rw [hx, hq]; simp
        · exact Or.inr (Or.inr ⟨a', c', hq, hane, hcne, ⟨s, hx.symm⟩, ⟨t, hy.symm⟩⟩)
  · exact Or.inr (Or.inl ⟨c', t, by rw [hy, List.append_assoc]⟩)

/-- A suffix of `x ++ y` is a suffix of `y` or contains `y` as a suffix. -/
theorem suffix_append_split {u x y : List Char} (h : u <:+ x ++ y) :
    u <:+ y ∨ y <:+ u :=
  List.suffix_or_suffix_of_suffix h (List.suffix_append x y)

/-- A prefix of `x ++ y` is a prefix of `x` or contains `x` as a prefix. -/
theorem prefix_append_split {v x y : List Char} (h : v <+: x ++ y) :
    v <+: x ∨ x <+: v :=
  List.prefix_or_prefix_of_prefix h (List.prefix_append x y)

/-- An occurrence of `q` in `a ++ pat ++ b` survives inserting `ins` right
after `pat`, provided `q` cannot straddle the insertion point. -/
theorem occ_keep_insert_after (ins : List Char) {q pat a b : List Char}
    (hq : q <:+: (a ++ pat) ++ b) (hside : TakeFreeOf q pat) :
    q <:+: (a ++ pat) ++ (ins ++ b) := by
  rcases infix_append_split hq with hx | hy | ⟨u, v, hq', hu, hv, hux, hvb⟩
  · exact hx.trans (prefixToInfix (List.prefix_append _ _))
  · exact hy.trans (suffixToInfix ((List.suffix_append ins b).trans
      (List.suffix_append _ _)))
  · exfalso
    have hupre : u = q.take u.length := by
      rw [← List.prefix_iff_eq_take]; exact ⟨v, hq'.symm⟩
    have hlt : u.length < q.length := by
      rw [hq', List.length_append]
      have : 0 < v.length := List.length_pos.mpr hv
      omega
    have hpos : 0 < u.length := List.length_pos.mpr hu
    obtain ⟨h1, h2⟩ := hside u.length hpos hlt
    rcases suffix_append_split hux with hs | hs
    · exact h1 (hupre ▸ hs)
    · exact h2 (hupre ▸ hs)

/-- An occurrence of `q` in `a ++ pat ++ b` survives inserting `ins` right
before `pat`, provided `q` cannot straddle the insertion point. -/
theorem occ_keep_insert_before (ins : List Char) {q pat a b : List Char}
    (hq : q <:+: a ++ (pat ++ b)) (hside : DropFreeOf q pat) :
    q <:+: a ++ (ins ++ (pat ++ b)) := by
  rcases infix_append_split hq with hx | hy | ⟨u, v, hq', hu, hv, hua, hvy⟩
  · exact hx.trans (prefixToInfix (List.prefix_append _ _))
  · refine hy.trans (suffixToInfix ?_)
    simpa [List.append_assoc] using List.suffix_append (a ++ ins) (pat ++ b)
  · exfalso
    have hvdrop : v = q.drop u.length := by
      rw [hq', List.drop_left]
    have hlt : u.length < q.length := by
      rw [hq', List.length_append]
      have : 0 < v.length := List.length_pos.mpr hv
      omega
    have hpos : 0 < u.length := List.length_pos.mpr hu
    obtain ⟨h1, h2⟩ := (hvdrop ▸ hside u.length hpos hlt)
    rcases prefix_append_split hvy with hs | hs
    · exact h1 hs
    · exact h2 hs

/-- Decomposition of an occurrence of `q` around a distinguished single
character: it lies left of it, right of it, or covers it. -/
theorem occ_split_around_char {q X Y : List Char} {x : Char}
    (h : q <:+: X ++ (x :: Y)) :
    q <:+: X ∨ q <:+: Y ∨
      ∃ u v, q = u ++ x :: v ∧ u <:+ X ∧ v <+: Y := by
  rcases infix_append_split h with hx | hy | ⟨u, v, hq', hu, hv, hux, hvy⟩
  · exact Or.inl hx
  · rcases List.infix_cons_iff.mp hy with hp | hi
    · cases q with
      | nil => exact Or.inl List.nil_infix
      | cons c q' =>
        obtain ⟨t, ht⟩ := hp
        injection ht with h1 h2
        refine Or.inr (Or.inr ⟨[], q', ?_, List.nil_suffix, ⟨t, h2⟩⟩)
        rw [h1]; rfl
    · exact Or.inr (Or.inl hi)
  · cases v with
    | nil => exact absurd rfl hv
    | cons c v' =>
      obtain ⟨t, ht⟩ := hvy
      injection ht with h1 h2
      exact Or.inr (Or.inr ⟨u, v', by rw [hq', h1], hux, ⟨t, h2⟩⟩)

/-- Occurrences survive a replacement which appends `ins` after the
replaced string, under the no-straddle side condition. -/
theorem keep_replace_after {pat ins rep q t : List Char}
    (hrep : rep = pat ++ ins) (hq : q <:+: t) (hside : TakeFreeOf q pat) :
    q <:+: replaceFirst pat rep t := by
  by_cases ho : pat <:+: t
  · obtain ⟨a, b, hs, hr, -⟩ := replaceFirst_spec (rep) ho
    rw [hr, hrep]
    have h1 : q <:+: (a ++ pat) ++ b := hs ▸ hq
    have h2 := occ_keep_insert_after ins h1 hside
    simpa [List.append_assoc] using h2
  · rwa [replaceFirst_no_match ho]

/-- Occurrences survive a replacement which inserts `ins` before the
replaced string, under the no-straddle side condition. -/
theorem keep_replace_before {pat ins rep q t : List Char}
    (hrep : rep = ins ++ pat) (hq : q <:+: t) (hside : DropFreeOf q pat) :
    q <:+: replaceFirst pat rep t := by
  by_cases ho : pat <:+: t
  · obtain ⟨a, b, hs, hr, -⟩ := replaceFirst_spec (rep) ho
    rw [hr, hrep]
    rw [List.append_assoc] at hs
    have h1 : q <:+: a ++ (pat ++ b) := hs ▸ hq
    have h2 := occ_keep_insert_before ins h1 hside
    simpa [List.append_assoc] using h2
  · rwa [replaceFirst_no_match ho]

/-- Occurrences of a string not containing the character `x` survive a
replacement that rewrites `c ++ x :: d` to `c ++ y :: d`. -/
theorem keep_replace_char {c d q t : List Char} {x y : Char}
    (hq : q <:+: t) (hx : x ∉ q) :
    q <:+: replaceFirst (c ++ x :: d) (c ++ y :: d) t := by
  by_cases ho : (c ++ x :: d) <:+: t
  · obtain ⟨a, b, hs, hr, -⟩ := replaceFirst_spec (c ++ y :: d) ho
    rw [hr]
    have hsplit : q <:+: (a ++ c) ++ (x :: (d ++ b)) := by
      rw [hs] at hq
      simpa [List.append_assoc] using hq
    rcases occ_split_around_char hsplit with h1 | h1 | ⟨u, v, hq', -, -⟩
    · refine h1.trans (prefixToInfix ?_)
      simp [List.append_assoc]
    · refine h1.trans (suffixToInfix ?_)
      simpa [List.append_assoc] using
        (List.suffix_append (a ++ (c ++ [y])) (d ++ b))
    · exact absurd (hq' ▸ List.mem_append_right u (List.mem_cons_self x v)) hx
  · rwa [replaceFirst_no_match ho]

theorem cssOnlyReplacement_eq :
    cssOnlyReplacement = cssOnlyAnchor ++ importLinesInserted := rfl

theorem compilerOptionsReplacement_eq :
    compilerOptionsReplacement = preprocessInserted ++ compilerOptionsAnchor := rfl

theorem commonjsReplacement_eq :
    commonjsReplacement = commonjsAnchor ++ typescriptPluginInserted := rfl

theorem mainJsEntry_eq : mainJsEntry = entryCore ++ 'j' :: entryTail := rfl

theorem mainTsEntry_eq : mainTsEntry = entryCore ++ 't' :: entryTail := rfl

/-- Occurrences of strings without a `j` survive the entry-point rename
edit (which only rewrites a `j` to a `t`). -/
theorem keep_entry_subst {q t : List Char} (hq : q <:+: t) (hx : 'j' ∉ q) :
    q <:+: replaceFirst mainJsEntry mainTsEntry t := by
  rw [mainJsEntry_eq, mainTsEntry_eq]
  exact keep_replace_char hq hx

/-- Occurrences of `commonjs(),` survive the entry-point rename edit: the
characters around the rewritten `j` are incompatible. -/
theorem commonjs_keep_entry_subst {t : List Char}
    (h : commonjsAnchor <:+: t) :
    commonjsAnchor <:+: replaceFirst mainJsEntry mainTsEntry t := by
  by_cases ho : mainJsEntry <:+: t
  · obtain ⟨a, b, hs, hr, -⟩ :=
      replaceFirst_spec (mainTsEntry) ho
    rw [hr, mainTsEntry_eq]
    rw [hs, mainJsEntry_eq] at h
    have hsplit : commonjsAnchor <:+: (a ++ entryCore) ++ ('j' :: (entryTail ++ b)) := by
      simpa [List.append_assoc] using h
    rcases occ_split_around_char hsplit with h1 | h1 | ⟨u, v, hq', husfx, -⟩
    · refine h1.trans (prefixToInfix ?_)
      simp [List.append_assoc]
    · refine h1.trans (suffixToInfix ?_)
      simpa [List.append_assoc] using
        (List.suffix_append (a ++ (entryCore ++ ['t'])) (entryTail ++ b))
    · exfalso
      have hupre : u = commonjsAnchor.take u.length := by
        rw [← List.prefix_iff_eq_take]
        exact ⟨'j' :: v, hq'.symm⟩
      have hdropu : commonjsAnchor.drop u.length = 'j' :: v := by
        rw [hq', List.drop_left]
      have hlt : u.length < commonjsAnchor.length := by
        rw [hq']; simp
      have hdec : ∀ k, k < commonjsAnchor.length →
          (commonjsAnchor.drop k).head? = some 'j' →
          ¬ (commonjsAnchor.take k <:+ entryCore) ∧
          ¬ (entryCore <:+ commonjsAnchor.take k) := by decide
      obtain ⟨hc1, hc2⟩ := hdec u.length hlt (by rw [hdropu]; rfl)
      rcases suffix_append_split husfx with hsx | hsx
      · exact hc1 (hupre ▸ hsx)
      · exact hc2 (hupre ▸ hsx)
  · rwa [replaceFirst_no_match ho]

/-- Claim C2: for every bundler configuration text containing the four
anchor substrings, one conversion run replaces, at each of the four steps
in source order, exactly the first occurrence of the corresponding anchor
by its enlarged version: the two import lines are inserted right after the
css import anchor, the entry-point string is switched to `'src/main.ts'`,
the preprocessor line is inserted right before `compilerOptions:`, and the
typescript plugin invocation is inserted right after `commonjs(),` — each
exactly once, adjacent to its anchor. -/
theorem rollup_config_four_anchored_edits {t : List Char}
    (h1 : cssOnlyAnchor <:+: t) (h2 : mainJsEntry <:+: t)
    (h3 : compilerOptionsAnchor <:+: t) (h4 : commonjsAnchor <:+: t) :
    ReplFirst cssOnlyAnchor cssOnlyReplacement t
      (replaceFirst cssOnlyAnchor cssOnlyReplacement t) ∧
    ReplFirst mainJsEntry mainTsEntry
      (replaceFirst cssOnlyAnchor cssOnlyReplacement t)
      (replaceFirst mainJsEntry mainTsEntry
        (replaceFirst cssOnlyAnchor cssOnlyReplacement t)) ∧
    ReplFirst compilerOptionsAnchor compilerOptionsReplacement
      (replaceFirst mainJsEntry mainTsEntry
        (replaceFirst cssOnlyAnchor cssOnlyReplacement t))
      (replaceFirst compilerOptionsAnchor compilerOptionsReplacement
        (replaceFirst mainJsEntry mainTsEntry
          (replaceFirst cssOnlyAnchor cssOnlyReplacement t))) ∧
    ReplFirst commonjsAnchor commonjsReplacement
      (replaceFirst compilerOptionsAnchor compilerOptionsReplacement
        (replaceFirst mainJsEntry mainTsEntry
          (replaceFirst cssOnlyAnchor cssOnlyReplacement t)))
      (rollupConfigTransform t) := by
  have h2a : mainJsEntry <:+: replaceFirst cssOnlyAnchor cssOnlyReplacement t :=
    keep_replace_after cssOnlyReplacement_eq h2 (by decide)
  have h3a : compilerOptionsAnchor <:+:
      replaceFirst cssOnlyAnchor cssOnlyReplacement t :=
    keep_replace_after cssOnlyReplacement_eq h3 (by decide)
  have h3b : compilerOptionsAnchor <:+:
      replaceFirst mainJsEntry mainTsEntry
        (replaceFirst cssOnlyAnchor cssOnlyReplacement t) :=
    keep_entry_subst h3a (by decide)
  have h4a : commonjsAnchor <:+: replaceFirst cssOnlyAnchor cssOnlyReplacement t :=
    keep_replace_after cssOnlyReplacement_eq h4 (by decide)
  have h4b : commonjsAnchor <:+:
      replaceFirst mainJsEntry mainTsEntry
        (replaceFirst cssOnlyAnchor cssOnlyReplacement t) :=
    commonjs_keep_entry_subst h4a
  have h4c : commonjsAnchor <:+:
      replaceFirst compilerOptionsAnchor compilerOptionsReplacement
        (replaceFirst mainJsEntry mainTsEntry
          (replaceFirst cssOnlyAnchor cssOnlyReplacement t)) :=
    keep_replace_before compilerOptionsReplacement_eq h4b (by decide)
  exact ⟨replaceFirst_spec _ h1, replaceFirst_spec _ h2a,
    replaceFirst_spec _ h3b, replaceFirst_spec _ h4c⟩

/-- The replacement written by a first-occurrence replacement occurs in
its output. -/
theorem ReplFirst.rep_occurs {pat rep s r : List Char}
    (h : ReplFirst pat rep s r) : rep <:+: r := by
  obtain ⟨a, b, -, hr, -⟩ := h
  exact ⟨a, b, hr.symm⟩

/-- Claim C3: running the bundler-configuration transformation a second
time is not idempotent.  On the already-converted text the css import
anchor, the `compilerOptions:` anchor and the `commonjs(),` anchor all
still occur, so the second run inserts a second copy of the import lines,
of the preprocessor line and of the typescript plugin invocation, and its
output differs from its input. -/
theorem rollup_config_second_run_duplicates {t : List Char}
    (h1 : cssOnlyAnchor <:+: t) (_h2 : mainJsEntry <:+: t)
    (h3 : compilerOptionsAnchor <:+: t) (h4 : commonjsAnchor <:+: t) :
    cssOnlyAnchor <:+: rollupConfigTransform t ∧
    compilerOptionsAnchor <:+: rollupConfigTransform t ∧
    commonjsAnchor <:+: rollupConfigTransform t ∧
    (∃ u1 u3,
      ReplFirst cssOnlyAnchor cssOnlyReplacement (rollupConfigTransform t) u1 ∧
      ReplFirst compilerOptionsAnchor compilerOptionsReplacement
        (replaceFirst mainJsEntry mainTsEntry u1) u3 ∧
      ReplFirst commonjsAnchor commonjsReplacement u3
        (rollupConfigTransform (rollupConfigTransform t))) ∧
    rollupConfigTransform (rollupConfigTransform t) ≠ rollupConfigTransform t := by
  have hstep1 := replaceFirst_spec (cssOnlyReplacement) h1
  have ha1 : cssOnlyAnchor <:+: replaceFirst cssOnlyAnchor cssOnlyReplacement t :=
    (prefixToInfix (cssOnlyReplacement_eq ▸
      List.prefix_append cssOnlyAnchor importLinesInserted)).trans
      hstep1.rep_occurs
  have ha2 : cssOnlyAnchor <:+:
      replaceFirst mainJsEntry mainTsEntry
        (replaceFirst cssOnlyAnchor cssOnlyReplacement t) :=
    keep_entry_subst ha1 (by decide)
  have ha3 : cssOnlyAnchor <:+:
      replaceFirst compilerOptionsAnchor compilerOptionsReplacement
        (replaceFirst mainJsEntry mainTsEntry
          (replaceFirst cssOnlyAnchor cssOnlyReplacement t)) :=
    keep_replace_before compilerOptionsReplacement_eq ha2 (by decide)
  have ha4 : cssOnlyAnchor <:+: rollupConfigTransform t :=
    keep_replace_after commonjsReplacement_eq ha3 (by decide)
  have hb2 : compilerOptionsAnchor <:+:
      replaceFirst mainJsEntry mainTsEntry
        (replaceFirst cssOnlyAnchor cssOnlyReplacement t) := by
    have h3a : compilerOptionsAnchor <:+:
        replaceFirst cssOnlyAnchor cssOnlyReplacement t :=
      keep_replace_after cssOnlyReplacement_eq h3 (by decide)
    exact keep_entry_subst h3a (by decide)
  have hb3 : compilerOptionsAnchor <:+:
      replaceFirst compilerOptionsAnchor compilerOptionsReplacement
        (replaceFirst mainJsEntry mainTsEntry
          (replaceFirst cssOnlyAnchor cssOnlyReplacement t)) :=
    (suffixToInfix (compilerOptionsReplacement_eq ▸
      List.suffix_append preprocessInserted compilerOptionsAnchor)).trans
      (replaceFirst_spec _ hb2).rep_occurs
  have hb4 : compilerOptionsAnchor <:+: rollupConfigTransform t :=
    keep_replace_after commonjsReplacement_eq hb3 (by decide)
  have hc3 : commonjsAnchor <:+:
      replaceFirst compilerOptionsAnchor compilerOptionsReplacement
        (replaceFirst mainJsEntry mainTsEntry
          (replaceFirst cssOnlyAnchor cssOnlyReplacement t)) := by
    have h4a : commonjsAnchor <:+:
        replaceFirst cssOnlyAnchor cssOnlyReplacement t :=
      keep_replace_after cssOnlyReplacement_eq h4 (by decide)
    exact keep_replace_before compilerOptionsReplacement_eq
      (commonjs_keep_entry_subst h4a) (by decide)
  have hc4 : commonjsAnchor <:+: rollupConfigTransform t :=
    (prefixToInfix (commonjsReplacement_eq ▸
      List.prefix_append commonjsAnchor typescriptPluginInserted)).trans
      (replaceFirst_spec _ hc3).rep_occurs
  refine ⟨ha4, hb4, hc4, ?_, ?_⟩
  · -- the second run performs the three insertions again
    have ra1 := replaceFirst_spec (cssOnlyReplacement) ha4
    have ha4' : compilerOptionsAnchor <:+:
        replaceFirst mainJsEntry mainTsEntry
          (replaceFirst cssOnlyAnchor cssOnlyReplacement
            (rollupConfigTransform t)) :=
      keep_entry_subst (keep_replace_after cssOnlyReplacement_eq hb4 (by decide))
        (by decide)
    have ra3 := replaceFirst_spec (compilerOptionsReplacement) ha4'
    have hc4' : commonjsAnchor <:+:
        replaceFirst compilerOptionsAnchor compilerOptionsReplacement
          (replaceFirst mainJsEntry mainTsEntry
            (replaceFirst cssOnlyAnchor cssOnlyReplacement
              (rollupConfigTransform t))) :=
      keep_replace_before compilerOptionsReplacement_eq
        (commonjs_keep_entry_subst
          (keep_replace_after cssOnlyReplacement_eq hc4 (by decide)))
        (by decide)
    have ra4 := replaceFirst_spec (commonjsReplacement) hc4'
    exact ⟨_, _, ra1, ra3, ra4⟩
  · -- length strictly grows, so the second run changes the text
    intro he
    have ra1 := (replaceFirst_spec (cssOnlyReplacement) ha4).length_eq
    have ha4' : compilerOptionsAnchor <:+:
        replaceFirst mainJsEntry mainTsEntry
          (replaceFirst cssOnlyAnchor cssOnlyReplacement
            (rollupConfigTransform t)) :=
      keep_entry_subst (keep_replace_after cssOnlyReplacement_eq hb4 (by decide))
        (by decide)
    have ra3 := (replaceFirst_spec (compilerOptionsReplacement) ha4').length_eq
    have hc4' : commonjsAnchor <:+:
        replaceFirst compilerOptionsAnchor compilerOptionsReplacement
          (replaceFirst mainJsEntry mainTsEntry
            (replaceFirst cssOnlyAnchor cssOnlyReplacement
              (rollupConfigTransform t))) :=
      keep_replace_before compilerOptionsReplacement_eq
        (commonjs_keep_entry_subst
          (keep_replace_after cssOnlyReplacement_eq hc4 (by decide)))
        (by decide)
    have ra4 := (replaceFirst_spec (commonjsReplacement) hc4').length_eq
    have rlen2 : (replaceFirst mainJsEntry mainTsEntry
        (replaceFirst cssOnlyAnchor cssOnlyReplacement
          (rollupConfigTransform t))).length =
        (replaceFirst cssOnlyAnchor cssOnlyReplacement
          (rollupConfigTransform t)).length :=
      replaceFirst_length_of_eq_length (by decide)

    have hlen1 : cssOnlyReplacement.length =
        cssOnlyAnchor.length + importLinesInserted.length := by
      rw [cssOnlyReplacement_eq, List.length_append]
    have hlen3 : compilerOptionsReplacement.length =
        preprocessInserted.length + compilerOptionsAnchor.length := by
      rw [compilerOptionsReplacement_eq, List.length_append]
    have hlen4 : commonjsReplacement.length =
        commonjsAnchor.length + typescriptPluginInserted.length := by
      rw [commonjsReplacement_eq, List.length_append]
    have hpos : 0 < importLinesInserted.length := by decide
    have hfin := congrArg List.length he
    rw [show rollupConfigTransform (rollupConfigTransform t) =
      replaceFirst commonjsAnchor commonjsReplacement
        (replaceFirst compilerOptionsAnchor compilerOptionsReplacement
          (replaceFirst mainJsEntry mainTsEntry
            (replaceFirst cssOnlyAnchor cssOnlyReplacement
              (rollupConfigTransform t)))) from rfl] at hfin
    omega

/-- Witness for the four-anchored-edits theorem at a concrete bundler
configuration text. -/
theorem rollup_config_four_anchored_edits_witness :
    (cssOnlyAnchor <:+: rollupSample ∧ mainJsEntry <:+: rollupSample ∧
     compilerOptionsAnchor <:+: rollupSample ∧
     commonjsAnchor <:+: rollupSample) ∧
    ReplFirst cssOnlyAnchor cssOnlyReplacement rollupSample
      (replaceFirst cssOnlyAnchor cssOnlyReplacement rollupSample) :=
  ⟨⟨by decide, by decide, by decide, by decide⟩,
    (rollup_config_four_anchored_edits (by decide) (by decide) (by decide)
      (by decide)).1⟩

/-- Witness for the second-run non-idempotence theorem at a concrete
bundler configuration text. -/
theorem rollup_config_second_run_duplicates_witness :
    (cssOnlyAnchor <:+: rollupSample ∧ mainJsEntry <:+: rollupSample ∧
     compilerOptionsAnchor <:+: rollupSample ∧
     commonjsAnchor <:+: rollupSample) ∧
    rollupConfigTransform (rollupConfigTransform rollupSample) ≠
      rollupConfigTransform rollupSample :=
  ⟨⟨by decide, by decide, by decide, by decide⟩,
    (rollup_config_second_run_duplicates (by decide) (by decide) (by decide)
      (by decide)).2.2.2.2⟩

theorem occCount_cons (pat : List Char) (c : Char) (s : List Char) :
    occCount pat (c :: s) =
      (if pat.isPrefixOf (c :: s) then 1 else 0) + occCount pat s := by
  unfold occCount
  rw [List.tails_cons, List.filter_cons]
  by_cases h : pat.isPrefixOf (c :: s) <;> simp [h] <;> omega

/-- A string that does not occur has occurrence count zero. -/
theorem occCount_eq_zero {pat s : List Char} (h : ¬ pat <:+: s) :
    occCount pat s = 0 := by
  unfold occCount
  rw [List.length_eq_zero, List.filter_eq_nil_iff]
  intro u hu hp
  exact h ((prefixToInfix (prefixBool.mp hp)).trans
    (suffixToInfix ((List.mem_tails u s).mp hu)))

/-- A self-overlap-free string occurring at a known position, and nowhere
in the flanks, occurs exactly once. -/
theorem occCount_eq_one {q a b : List Char} (hq : q ≠ [])
    (hself : SelfOverlapFreeStr q)
    (ha : ¬ q <:+: a) (hb : ¬ q <:+: b) :
    occCount q (a ++ q ++ b) = 1 := by
  induction a with
  | nil =>
    cases q with
    | nil => exact absurd rfl hq
    | cons c q' =>
      have hmid : occCount (c :: q') (q' ++ b) = 0 := by
        apply occCount_eq_zero
        intro hinf
        rcases infix_append_split hinf with h1 | h1 | ⟨u, v, hq', hu, hv, hus, hvp⟩
        · have := h1.length_le; simp at this
        · exact hb h1
        · obtain ⟨w, hw⟩ := hus
          have hcw : (c :: q') = (c :: w) ++ u := by simp [hw]
          have hk : (c :: q').drop (w.length + 1) = u := by
            rw [hcw]; simpa using List.drop_left (c :: w) u
          have hupre : u <+: (c :: q') := ⟨v, hq'.symm⟩
          have hlt : w.length + 1 < (c :: q').length := by
            have h1 : (c :: q').length = w.length + 1 + u.length := by
              rw [hcw]; simp; omega
            have h2 : 0 < u.length := List.length_pos.mpr hu
            omega
          exact hself (w.length + 1) (by omega) hlt (hk ▸ hupre)
      have hfirst : (c :: q').isPrefixOf ((c :: q') ++ b) = true :=
        prefixBool.mpr (List.prefix_append (c :: q') b)
      have hrw : occCount (c :: q') ((c :: q') ++ b) =
          1 + occCount (c :: q') (q' ++ b) := by
        have := occCount_cons (c :: q') c (q' ++ b)
        simpa [hfirst] using this
      simpa [hmid] using hrw
  | cons c a' ih =>
    have ha' : ¬ q <:+: a' := fun h =>
      ha (List.infix_cons_iff.mpr (Or.inr h))
    have hstep : (c :: a') ++ q ++ b = c :: (a' ++ q ++ b) := by simp
    have hnp : ¬ q <+: (c :: (a' ++ q ++ b)) := by
      intro hp
      have hp2 : q <+: (c :: a') ++ (q ++ b) := by
        simpa [List.append_assoc] using hp
      rcases prefix_append_split hp2 with h1 | h1
      · exact ha (prefixToInfix h1)
      · rcases le_or_lt q.length (a'.length + 1) with hle | hlt
        · have hqa : c :: a' = q := h1.eq_of_length
            (Nat.le_antisymm h1.length_le (by simpa using hle))
          exact ha (by rw [hqa])
        · obtain ⟨r, hr⟩ := h1
          have hkdrop : q.drop (a'.length + 1) = r := by
            rw [← hr]; simpa using List.drop_left (c :: a') r
          have hq2 : (c :: a') ++ r <+: (c :: a') ++ (q ++ b) := by
            rw [hr]; exact hp2
          have hrpre : r <+: q ++ b :=
            (List.prefix_append_right_inj (c :: a')).mp hq2
          have hrlen : r.length ≤ q.length := by
            have := congrArg List.length hr
            simp at this; omega
          have hrq : r <+: q := by
            have h3 : r = (q ++ b).take r.length :=
              List.prefix_iff_eq_take.mp hrpre
            rw [List.take_append_of_le_length hrlen] at h3
            rw [h3]
            exact List.take_prefix r.length q
          exact hself (a'.length + 1) (by omega) hlt (hkdrop ▸ hrq)
    have hnb : q.isPrefixOf (c :: (a' ++ q ++ b)) = false := by
      rw [Bool.eq_false_iff]
      intro hpb; exact hnp (prefixBool.mp hpb)
    rw [hstep, occCount_cons, hnb]
    simpa using ih ha'

/-- An occurrence of `q` in `a ++ pat ++ b` where `q` cannot overlap `pat`
lies entirely in `a` or entirely in `b`. -/
theorem occ_split_no_overlap {q pat a b : List Char}
    (hq : q <:+: a ++ pat ++ b) (hno : CannotOverlap q pat) :
    q <:+: a ∨ q <:+: b := by
  obtain ⟨hn1, hn2, hn3⟩ := hno
  rw [List.append_assoc] at hq
  rcases infix_append_split hq with h1 | h1 | ⟨u, v, hq', hu, hv, hus, hvp⟩
  · exact Or.inl h1
  · rcases infix_append_split h1 with h2 | h2 | ⟨u, v, hq', hu, hv, hus, hvp⟩
    · exact absurd h2 hn1
    · exact Or.inr h2
    · exfalso
      have hupre : u = q.take u.length :=
        List.prefix_iff_eq_take.mp ⟨v, hq'.symm⟩
      have hlt : u.length < q.length := by
        rw [hq', List.length_append]
        have := List.length_pos.mpr hv; omega
      have hpos : 0 < u.length := List.length_pos.mpr hu
      exact (hn3 u.length hpos hlt).1 (hupre ▸ hus)
  · exfalso
    have hvd : v = q.drop u.length := by rw [hq', List.drop_left]
    have hpos : 0 < u.length := List.length_pos.mpr hu
    have hlt : u.length < q.length := by
      rw [hq', List.length_append]
      have := List.length_pos.mpr hv; omega
    rcases prefix_append_split hvp with h2 | h2
    · exact (hn3 u.length hpos hlt).2 (hvd ▸ h2)
    · exact hn2 ((prefixToInfix h2).trans
        (suffixToInfix (hvd ▸ List.drop_suffix u.length q)))

/-- Replacing `pat` by anything preserves occurrences of strings that
cannot overlap `pat`. -/
theorem keep_replace_no_overlap {q pat rep t : List Char}
    (hq : q <:+: t) (hno : CannotOverlap q pat) :
    q <:+: replaceFirst pat rep t := by
  by_cases ho : pat <:+: t
  · obtain ⟨a, b, hs, hr, -⟩ := replaceFirst_spec (rep) ho
    rw [hr]
    rcases occ_split_no_overlap (hs ▸ hq) hno with h1 | h1
    · exact h1.trans (prefixToInfix
        ((List.prefix_append a rep).trans (List.prefix_append (a ++ rep) b)))
    · exact h1.trans (suffixToInfix (List.suffix_append (a ++ rep) b))
  · rwa [replaceFirst_no_match ho]

/-- Two occurrences in the same text, of `p` and of a `q` that cannot
overlap `p`, are disjoint: one ends before the other starts. -/
theorem two_occ_disjoint {s a b x y p q : List Char}
    (h1 : s = a ++ p ++ b) (h2 : s = x ++ q ++ y)
    (hno : CannotOverlap q p) :
    (∃ m, x = a ++ p ++ m ∧ b = m ++ q ++ y) ∨
    (∃ m, a = x ++ q ++ m ∧ y = m ++ p ++ b) := by
  obtain ⟨hn1, hn2, hn3⟩ := hno
  have hs : a ++ (p ++ b) = x ++ (q ++ y) := by
    rw [← List.append_assoc, ← List.append_assoc, ← h1, ← h2]
  rcases List.append_eq_append_iff.mp hs with ⟨w, hx, hpb⟩ | ⟨w, ha, hqy⟩
  · rcases List.append_eq_append_iff.mp hpb with ⟨w2, hw, hb⟩ | ⟨w2, hp, hqy2⟩
    · left
      exact ⟨w2, by rw [hx, hw, List.append_assoc],
        by rw [hb, List.append_assoc]⟩
    · rcases List.append_eq_append_iff.mp hqy2 with ⟨w3, hw2, -⟩ | ⟨w3, hq3, hb3⟩
      · exact absurd ((prefixToInfix ⟨w3, hw2.symm⟩).trans
          (suffixToInfix ⟨w, hp.symm⟩)) hn1
      · rcases eq_or_ne w2 [] with rfl | hw2ne
        · left
          refine ⟨[], ?_, ?_⟩
          · simp at hp
            rw [hx, hp]; simp
          · simp at hq3
            rw [hb3, hq3]; simp
        · rcases eq_or_ne w3 [] with rfl | hw3ne
          · refine absurd (suffixToInfix ⟨w, ?_⟩) hn1
            simp at hq3
            rw [hp, hq3]
          · exfalso
            have hq2pre : w2 = q.take w2.length :=
              List.prefix_iff_eq_take.mp ⟨w3, hq3.symm⟩
            have hlt : w2.length < q.length := by
              rw [hq3, List.length_append]
              have := List.length_pos.mpr hw3ne; omega
            have hpos : 0 < w2.length := List.length_pos.mpr hw2ne
            exact (hn3 w2.length hpos hlt).1 (hq2pre ▸ ⟨w, hp.symm⟩)
  · rcases List.append_eq_append_iff.mp hqy with ⟨w2, hw, hy⟩ | ⟨w2, hq3, hpb2⟩
    · right
      exact ⟨w2, by rw [ha, hw, List.append_assoc],
        by rw [hy, List.append_assoc]⟩
    · rcases eq_or_ne w [] with rfl | hwne
      · exfalso
        simp at hq3
        have hqp : q <+: p ++ b := ⟨y, by rw [hpb2, hq3]⟩
        rcases prefix_append_split hqp with h4 | h4
        · exact hn1 (prefixToInfix h4)
        · exact hn2 (prefixToInfix h4)
      · rcases eq_or_ne w2 [] with rfl | hw2ne
        · right
          refine ⟨[], ?_, ?_⟩
          · simp at hq3
            rw [ha, hq3]; simp
          · simp at hpb2
            rw [← hpb2]; simp
        · exfalso
          have hvd : w2 = q.drop w.length := by rw [hq3, List.drop_left]
          have hpos : 0 < w.length := List.length_pos.mpr hwne
          have hlt : w.length < q.length := by
            rw [hq3, List.length_append]
            have := List.length_pos.mpr hw2ne; omega
          have hw2p : w2 <+: p ++ b := ⟨y, hpb2.symm⟩
          rcases prefix_append_split hw2p with h4 | h4
          · exact (hn3 w.length hpos hlt).2 (hvd ▸ h4)
          · exact hn2 ((prefixToInfix h4).trans
              (suffixToInfix (hvd ▸ List.drop_suffix w.length q)))

/-- Claim C5: a component file text containing neither `<script>` nor
`export let name;` passes through the conversion's two replacements
unchanged — both are silent no-ops and no error is possible (the
transformation is a total function). -/
theorem app_file_absent_anchors_no_op {t : List Char}
    (h1 : ¬ scriptTagOld <:+: t) (h2 : ¬ exportLetOld <:+: t) :
    appFileTransform t = t := by
  unfold appFileTransform
  rw [replaceFirst_no_match h1, replaceFirst_no_match h2]

/-- Witness for the no-op theorem at a concrete component file text. -/
theorem app_file_absent_anchors_no_op_witness :
    (¬ scriptTagOld <:+: appPlainSample ∧
     ¬ exportLetOld <:+: appPlainSample) ∧
    appFileTransform appPlainSample = appPlainSample :=
  ⟨⟨by decide, by decide⟩,
    app_file_absent_anchors_no_op (by decide) (by decide)⟩

/-- Claim C4 as stated is false: on a component file text that contains
the two searched substrings but also already contains `<script
lang="ts">`, the converted file contains `<script lang="ts">` twice, not
exactly once. -/
theorem app_file_exactly_once_counterexample :
    scriptTagOld <:+: appPreTypedSample ∧
    exportLetOld <:+: appPreTypedSample ∧
    occCount scriptTagNew (appFileTransform appPreTypedSample) = 2 :=
  ⟨by decide, by decide, by decide⟩

/-- Claim C4, amended: for a component file text containing `<script>` and
`export let name;` and containing neither `<script lang="ts">` nor
`export let name: string;`, the converted file contains `<script
lang="ts">` exactly once and `export let name: string;` exactly once, and
nothing else is altered: each of the two edits replaces exactly the first
occurrence of its searched substring, keeping all surrounding text. -/
theorem app_file_typed_replacements {t : List Char}
    (h1 : scriptTagOld <:+: t) (h2 : exportLetOld <:+: t)
    (h3 : ¬ scriptTagNew <:+: t) (h4 : ¬ exportLetNew <:+: t) :
    occCount scriptTagNew (appFileTransform t) = 1 ∧
    occCount exportLetNew (appFileTransform t) = 1 ∧
    ReplFirst scriptTagOld scriptTagNew t
      (replaceFirst scriptTagOld scriptTagNew t) ∧
    ReplFirst exportLetOld exportLetNew
      (replaceFirst scriptTagOld scriptTagNew t) (appFileTransform t) := by
  obtain ⟨g, d, hs1, hr1, -⟩ := replaceFirst_spec (scriptTagNew) h1
  have h2' : exportLetOld <:+: replaceFirst scriptTagOld scriptTagNew t :=
    keep_replace_no_overlap h2 (by decide)
  obtain ⟨g2, d2, hs2, hr2, -⟩ := replaceFirst_spec (exportLetNew) h2'
  have hgp : g <+: t := ⟨scriptTagOld ++ d, by rw [hs1, List.append_assoc]⟩
  have hds : d <:+ t := ⟨g ++ scriptTagOld, hs1.symm⟩
  have hng : ¬ scriptTagNew <:+: g := fun h => h3 (h.trans (prefixToInfix hgp))
  have hnd : ¬ scriptTagNew <:+: d := fun h => h3 (h.trans (suffixToInfix hds))
  have hnt1 : ¬ exportLetNew <:+:
      replaceFirst scriptTagOld scriptTagNew t := by
    intro h
    rcases occ_split_no_overlap (hr1 ▸ h) (by decide) with h5 | h5
    · exact h4 (h5.trans (prefixToInfix hgp))
    · exact h4 (h5.trans (suffixToInfix hds))
  have hng2 : ¬ exportLetNew <:+: g2 := fun h =>
    hnt1 (h.trans (prefixToInfix ⟨exportLetOld ++ d2, by
      rw [hs2, List.append_assoc]⟩))
  have hnd2 : ¬ exportLetNew <:+: d2 := fun h =>
    hnt1 (h.trans (suffixToInfix ⟨g2 ++ exportLetOld, hs2.symm⟩))
  have happ : appFileTransform t = g2 ++ exportLetNew ++ d2 := by
    show replaceFirst exportLetOld exportLetNew
      (replaceFirst scriptTagOld scriptTagNew t) = _
    exact hr2
  have hcount2 : occCount exportLetNew (appFileTransform t) = 1 := by
    rw [happ]
    exact occCount_eq_one (by decide) (by decide) hng2 hnd2
  have hdisj := two_occ_disjoint hr1 hs2
    (by decide : CannotOverlap exportLetOld scriptTagNew)
  have hcount1 : occCount scriptTagNew (appFileTransform t) = 1 := by
    rcases hdisj with ⟨m, hx, hb⟩ | ⟨m, ha, hy⟩
    · have hmp : m <+: d := ⟨exportLetOld ++ d2, by
        rw [hb, List.append_assoc]⟩
      have hd2s : d2 <:+ d := ⟨m ++ exportLetOld, hb.symm⟩
      have hnm : ¬ scriptTagNew <:+: m ++ exportLetNew ++ d2 := by
        intro h
        rcases occ_split_no_overlap h (by decide) with h5 | h5
        · exact hnd (h5.trans (prefixToInfix hmp))
        · exact hnd (h5.trans (suffixToInfix hd2s))
      have : appFileTransform t =
          g ++ scriptTagNew ++ (m ++ exportLetNew ++ d2) := by
        rw [happ, hx]
        simp [List.append_assoc]
      rw [this]
      exact occCount_eq_one (by decide) (by decide) hng hnm
    · have hg2p : g2 <+: g := ⟨exportLetOld ++ m, by
        rw [ha, List.append_assoc]⟩
      have hms : m <:+ g := ⟨g2 ++ exportLetOld, ha.symm⟩
      have hnm : ¬ scriptTagNew <:+: g2 ++ exportLetNew ++ m := by
        intro h
        rcases occ_split_no_overlap h (by decide) with h5 | h5
        · exact hng (h5.trans (prefixToInfix hg2p))
        · exact hng (h5.trans (suffixToInfix hms))
      have : appFileTransform t =
          (g2 ++ exportLetNew ++ m) ++ scriptTagNew ++ d := by
        rw [happ, hy]
        simp [List.append_assoc]
      rw [this]
      exact occCount_eq_one (by decide) (by decide) hnm hnd
  exact ⟨hcount1, hcount2, replaceFirst_spec _ h1, replaceFirst_spec _ h2'⟩

/-- Witness for the amended exactly-once theorem at a concrete component
file text. -/
theorem app_file_typed_replacements_witness :
    (scriptTagOld <:+: appFileSample ∧ exportLetOld <:+: appFileSample ∧
     ¬ scriptTagNew <:+: appFileSample ∧
     ¬ exportLetNew <:+: appFileSample) ∧
    (occCount scriptTagNew (appFileTransform appFileSample) = 1 ∧
     occCount exportLetNew (appFileTransform appFileSample) = 1) :=
  ⟨⟨by decide, by decide, by decide, by decide⟩,
    ⟨(app_file_typed_replacements (by decide) (by decide) (by decide)
        (by decide)).1,
     (app_file_typed_replacements (by decide) (by decide) (by decide)
        (by decide)).2.1⟩⟩

theorem setKey_cons_ne {α β : Type} [BEq α] {k0 k : α} (h : (k0 == k) = false)
    (v0 : β) (m : List (α × β)) (v : β) :
    setKey ((k0, v0) :: m) k v = (k0, v0) :: setKey m k v := by
  unfold setKey
  by_cases ha : m.any (fun p => p.1 == k) <;> simp [ha, h]

/-- Lookup of a key other than `k` is unaffected by overwriting the
entries keyed `k`. -/
theorem lookup_map_overwrite {α β : Type} [BEq α] [LawfulBEq α]
    {k' k : α} (h : (k' == k) = false) (v : β) (l : List (α × β)) :
    (l.map (fun p => if p.1 == k then (k, v) else p)).lookup k' =
      l.lookup k' := by
  induction l with
  | nil => simp
  | cons q rest ih =>
    obtain ⟨kq, vq⟩ := q
    simp only [List.map_cons]
    split
    · next hq =>
      have hkq : kq = k := by simpa using hq
      subst hkq
      simp [List.lookup, h, ih]
    · next hq =>
      cases hk : (k' == kq) <;> simp [List.lookup, hk, ih]

/-- Lookup of a key other than `k` skips an appended `(k, v)` entry. -/
theorem lookup_append_single_ne {α β : Type} [BEq α]
    {k' k : α} (h : (k' == k) = false) (v : β) (m : List (α × β)) :
    (m ++ [(k, v)]).lookup k' = m.lookup k' := by
  induction m with
  | nil => simp [List.lookup, h]
  | cons q rest ih =>
    obtain ⟨kq, vq⟩ := q
    cases hk : (k' == kq) <;> simp [List.lookup, hk, ih]

/-- Looking up the assigned key finds the assigned value. -/
theorem lookup_setKey_self {α β : Type} [BEq α] [LawfulBEq α]
    (m : List (α × β)) (k : α) (v : β) :
    (setKey m k v).lookup k = some v := by
  induction m with
  | nil => simp [setKey]
  | cons p rest ih =>
    obtain ⟨k0, v0⟩ := p
    by_cases h : (k0 == k) = true
    · have hany : ((k0, v0) :: rest).any (fun p => p.1 == k) = true := by
        simp [List.any_cons, h]
      simp [setKey, hany, List.lookup, h]
    · rw [setKey_cons_ne (by simpa using h)]
      have hkk0 : (k == k0) = false := by
        rw [beq_eq_false_iff_ne]
        intro he
        exact h (by simp [he])
      simp [List.lookup, hkk0, ih]

/-- Looking up any other key is unaffected by the assignment. -/
theorem lookup_setKey_other {α β : Type} [BEq α] [LawfulBEq α]
    {k' k : α} (h : k' ≠ k) (m : List (α × β)) (v : β) :
    (setKey m k v).lookup k' = m.lookup k' := by
  have hb : (k' == k) = false := beq_eq_false_iff_ne.mpr h
  unfold setKey
  by_cases ha : m.any (fun p => p.1 == k)
  · simp only [ha, if_true]
    exact lookup_map_overwrite hb v m
  · simp only [ha, Bool.false_eq_true, if_false]
    exact lookup_append_single_ne hb v m

/-- Claim C1: for a manifest with `devDependencies` and `scripts` maps,
the merge succeeds; every pre-existing key outside the fixed key set (the
six fixed devDependency entries and the `check` script) keeps its value;
each fixed devDependency key and the `check` script key maps to its exact
specified value, overwriting any same-named pre-existing key; and all
other top-level members are untouched. -/
theorem package_json_merge_spec (p : PackageJSON)
    (dd sc : List (String × String))
    (hdd : p.devDependencies = some dd) (hsc : p.scripts = some sc) :
    ∃ dd' sc',
      mergePackageJSON p = .ok
        { devDependencies := some dd', scripts := some sc',
          otherFields := p.otherFields } ∧
      (∀ k, k ∉ fixedDevDependencies.map Prod.fst →
        dd'.lookup k = dd.lookup k) ∧
      (∀ kv, kv ∈ fixedDevDependencies → dd'.lookup kv.1 = some kv.2) ∧
      (∀ k, k ≠ "check" → sc'.lookup k = sc.lookup k) ∧
      sc'.lookup "check" = some "svelte-check" := by
  refine ⟨objAssign dd fixedDevDependencies, objAssign sc checkScriptEntry,
    by rw [mergePackageJSON, hdd, hsc], ?_, ?_, ?_, ?_⟩
  · intro k hk
    simp only [fixedDevDependencies, List.map_cons, List.map_nil,
      List.mem_cons, List.not_mem_nil, or_false, not_or] at hk
    obtain ⟨h1, h2, h3, h4, h5, h6⟩ := hk
    show (setKey (setKey (setKey (setKey (setKey (setKey dd
      "svelte-check" "^3.0.0") "svelte-preprocess" "^5.0.0")
      "@rollup/plugin-typescript" "^11.0.0") "typescript" "^4.9.0")
      "tslib" "^2.5.0") "@tsconfig/svelte" "^3.0.0").lookup k = dd.lookup k
    rw [lookup_setKey_other h6, lookup_setKey_other h5,
      lookup_setKey_other h4, lookup_setKey_other h3,
      lookup_setKey_other h2, lookup_setKey_other h1]
  · intro kv hkv
    show (setKey (setKey (setKey (setKey (setKey (setKey dd
      "svelte-check" "^3.0.0") "svelte-preprocess" "^5.0.0")
      "@rollup/plugin-typescript" "^11.0.0") "typescript" "^4.9.0")
      "tslib" "^2.5.0") "@tsconfig/svelte" "^3.0.0").lookup kv.1 =
        some kv.2
    simp only [fixedDevDependencies, List.mem_cons, List.not_mem_nil,
      or_false] at hkv
    rcases hkv with rfl | rfl | rfl | rfl | rfl | rfl
    · rw [lookup_setKey_other (by decide), lookup_setKey_other (by decide),
        lookup_setKey_other (by decide), lookup_setKey_other (by decide),
        lookup_setKey_other (by decide), lookup_setKey_self]
    · rw [lookup_setKey_other (by decide), lookup_setKey_other (by decide),
        lookup_setKey_other (by decide), lookup_setKey_other (by decide),
        lookup_setKey_self]
    · rw [lookup_setKey_other (by decide), lookup_setKey_other (by decide),
        lookup_setKey_other (by decide), lookup_setKey_self]
    · rw [lookup_setKey_other (by decide), lookup_setKey_other (by decide),
        lookup_setKey_self]
    · rw [lookup_setKey_other (by decide), lookup_setKey_self]
    · rw [lookup_setKey_self]
  · intro k hk
    show (setKey sc "check" "svelte-check").lookup k = sc.lookup k
    exact lookup_setKey_other hk sc "svelte-check"
  · show (setKey sc "check" "svelte-check").lookup "check" =
      some "svelte-check"
    exact lookup_setKey_self sc "check" "svelte-check"

/-- Witness for the merge theorem at a concrete manifest: unrelated keys
survive, fixed keys get their fixed values, clashing keys are
overwritten. -/
theorem package_json_merge_spec_witness :
    (manifestSample.devDependencies =
      some [("svelte", "^4.2.0"), ("typescript", "^3.0.0")] ∧
     manifestSample.scripts =
      some [("build", "rollup -c"), ("check", "old-check")]) ∧
    ∃ dd' sc',
      mergePackageJSON manifestSample = .ok
        { devDependencies := some dd', scripts := some sc',
          otherFields := manifestSample.otherFields } ∧
      (∀ k, k ∉ fixedDevDependencies.map Prod.fst →
        dd'.lookup k =
          (([("svelte", "^4.2.0"), ("typescript", "^3.0.0")] :
            List (String × String))).lookup k) ∧
      (∀ kv, kv ∈ fixedDevDependencies → dd'.lookup kv.1 = some kv.2) ∧
      (∀ k, k ≠ "check" → sc'.lookup k =
        (([("build", "rollup -c"), ("check", "old-check")] :
          List (String × String))).lookup k) ∧
      sc'.lookup "check" = some "svelte-check" :=
  ⟨⟨rfl, rfl⟩, package_json_merge_spec manifestSample _ _ rfl rfl⟩

/-- Lookup of a key other than the removed one is unaffected by removal. -/
theorem lookup_filter_ne {α β : Type} [BEq α] [LawfulBEq α]
    {p k : α} (h : p ≠ k) (l : List (α × β)) :
    (l.filter (fun q => ! (q.1 == k))).lookup p = l.lookup p := by
  induction l with
  | nil => simp
  | cons q rest ih =>
    obtain ⟨kq, vq⟩ := q
    by_cases hk : (kq == k) = true
    · have hkq : kq = k := by simpa using hk
      subst hkq
      have hpk : (p == kq) = false := beq_eq_false_iff_ne.mpr h
      simp [List.filter_cons, hk, List.lookup, hpk, ih]
    · have hf : (! (kq == k)) = true := by simpa using hk
      cases hpq : (p == kq) <;>
        simp [List.filter_cons, hf, List.lookup, hpq, ih]

/-- Removal of a key removes it from lookups. -/
theorem lookup_filter_self {α β : Type} [BEq α] [LawfulBEq α]
    (k : α) (l : List (α × β)) :
    (l.filter (fun q => ! (q.1 == k))).lookup k = none := by
  induction l with
  | nil => simp
  | cons q rest ih =>
    obtain ⟨kq, vq⟩ := q
    by_cases hk : (kq == k) = true
    · simp [List.filter_cons, hk, ih]
    · have hf : (! (kq == k)) = true := by simpa using hk
      have hkk : (k == kq) = false := by
        rw [beq_eq_false_iff_ne]
        intro he; exact hk (by simp [he])
      simp [List.filter_cons, hf, List.lookup, hkk, ih]

/-- Two paths differing in their final segment differ. -/
theorem path_ne_of_last_ne {d1 d2 : List String} {n1 n2 : String}
    (h : n1 ≠ n2) : d1 ++ [n1] ≠ d2 ++ [n2] := by
  intro he
  have := congrArg List.getLast? he
  rw [List.getLast?_concat, List.getLast?_concat] at this
  exact h (by injection this)

/-- Two paths with different parent directories differ. -/
theorem path_ne_of_dropLast_ne {p q : List String}
    (h : p.dropLast ≠ q.dropLast) : p ≠ q :=
  fun he => h (by rw [he])

/-- Appending different relative paths below the same root gives
different paths. -/
theorem append_root_ne {r a b : List String} (h : a ≠ b) :
    r ++ a ≠ r ++ b :=
  fun he => h (List.append_cancel_left he)

theorem writeFileSync_lookup_ne {fs : FS} {p q : List String}
    {d : FileData} (h : p ≠ q) :
    ((writeFileSync fs q d).files).lookup p = fs.files.lookup p :=
  lookup_setKey_other h _ _

theorem writeFileSync_lookup_self {fs : FS} {p : List String}
    {d : FileData} :
    ((writeFileSync fs p d).files).lookup p = some d :=
  lookup_setKey_self _ _ _

theorem writeFileSync_dirs (fs : FS) (p : List String) (d : FileData) :
    (writeFileSync fs p d).dirs = fs.dirs := rfl

theorem renameSync_ok {fs : FS} {src dst : List String} {d : FileData}
    (h : fs.files.lookup src = some d) :
    renameSync fs src dst = .ok { fs with
      files := setKey (fs.files.filter (fun q => ! (q.1 == src))) dst d } := by
  unfold renameSync
  rw [h]

theorem renameSync_err {fs : FS} {src dst : List String}
    (h : fs.files.lookup src = none) :
    renameSync fs src dst = .error "ENOENT" := by
  unfold renameSync
  rw [h]

theorem unlinkSync_ok {fs : FS} {p : List String}
    (h : (fs.files.lookup p).isSome) :
    unlinkSync fs p =
      .ok { fs with files := fs.files.filter (fun q => ! (q.1 == p)) } := by
  unfold unlinkSync
  rw [if_pos h]

theorem unlinkSync_ok_char {fs : FS} {q : List String} {fs' : FS}
    (h : unlinkSync fs q = .ok fs') :
    fs'.files = fs.files.filter (fun r => ! (r.1 == q)) ∧
    fs'.dirs = fs.dirs := by
  unfold unlinkSync at h
  split at h
  · injection h with h
    rw [← h]
    exact ⟨rfl, rfl⟩
  · cases h

theorem rmdirSync_ok_char {fs : FS} {q : List String} {fs' : FS}
    (h : rmdirSync fs q = .ok fs') :
    fs'.files = fs.files ∧
    fs'.dirs = fs.dirs.filter (fun d => ! (d == q)) := by
  unfold rmdirSync at h
  split at h
  · split at h
    · injection h with h
      rw [← h]
      exact ⟨rfl, rfl⟩
    · cases h
  · cases h

theorem renameSync_ok_char {fs : FS} {src dst : List String} {fs' : FS}
    (h : renameSync fs src dst = .ok fs') :
    ∃ d, fs.files.lookup src = some d ∧
      fs'.files = setKey (fs.files.filter (fun r => ! (r.1 == src))) dst d ∧
      fs'.dirs = fs.dirs := by
  unfold renameSync at h
  split at h
  · cases h
  · next d heq =>
    injection h with h
    exact ⟨d, heq, by rw [← h], by rw [← h]⟩

/-- Whether the self-deletion branch succeeds or aborts, the resulting
file table is the original one with possibly the script file and possibly
the `.DS_store` file removed, and the directory table is the original one
with possibly the script directory removed. -/
theorem selfDelete_char (cfg : Config) (fs : FS) :
    ((selfDelete cfg fs).2.files = fs.files ∨
     (selfDelete cfg fs).2.files =
       fs.files.filter
         (fun r => ! (r.1 == cfg.scriptDir ++ [cfg.scriptName])) ∨
     (selfDelete cfg fs).2.files =
       (fs.files.filter
         (fun r => ! (r.1 == cfg.scriptDir ++ [cfg.scriptName]))).filter
         (fun r => ! (r.1 == cfg.scriptDir ++ [".DS_store"]))) ∧
    ((selfDelete cfg fs).2.dirs = fs.dirs ∨
     (selfDelete cfg fs).2.dirs =
       fs.dirs.filter (fun d => ! (d == cfg.scriptDir))) := by
  unfold selfDelete
  cases hu : unlinkSync fs (cfg.scriptDir ++ [cfg.scriptName]) with
  | error e => exact ⟨Or.inl rfl, Or.inl rfl⟩
  | ok fs1 =>
    obtain ⟨hf1, hd1⟩ := unlinkSync_ok_char hu
    dsimp only
    cases hr : readdirSync fs1 cfg.scriptDir with
    | error e => exact ⟨Or.inr (Or.inl hf1), Or.inl hd1⟩
    | ok remaining =>
      dsimp only
      by_cases hc : remaining.length = 1 ∧ remaining.head? = some ".DS_store"
      · rw [if_pos hc]
        cases hu2 : unlinkSync fs1 (cfg.scriptDir ++ [".DS_store"]) with
        | error e => exact ⟨Or.inr (Or.inl hf1), Or.inl hd1⟩
        | ok fs2 =>
          obtain ⟨hf2, hd2⟩ := unlinkSync_ok_char hu2
          dsimp only
          cases hr2 : readdirSync fs2 cfg.scriptDir with
          | error e =>
            exact ⟨Or.inr (Or.inr (by rw [hf2, hf1])), Or.inl (by rw [hd2, hd1])⟩
          | ok remaining2 =>
            dsimp only
            by_cases hz : remaining2.length = 0
            · rw [if_pos hz]
              cases hrm : rmdirSync fs2 cfg.scriptDir with
              | error e =>
                exact ⟨Or.inr (Or.inr (by rw [hf2, hf1])),
                  Or.inl (by rw [hd2, hd1])⟩
              | ok fs3 =>
                obtain ⟨hf3, hd3⟩ := rmdirSync_ok_char hrm
                exact ⟨Or.inr (Or.inr (by rw [hf3, hf2, hf1])),
                  Or.inr (by rw [hd3, hd2, hd1])⟩
            · rw [if_neg hz]
              exact ⟨Or.inr (Or.inr (by rw [hf2, hf1])),
                Or.inl (by rw [hd2, hd1])⟩
      · rw [if_neg hc]
        dsimp only
        cases hr2 : readdirSync fs1 cfg.scriptDir with
        | error e => exact ⟨Or.inr (Or.inl hf1), Or.inl hd1⟩
        | ok remaining2 =>
          dsimp only
          by_cases hz : remaining2.length = 0
          · rw [if_pos hz]
            cases hrm : rmdirSync fs1 cfg.scriptDir with
            | error e => exact ⟨Or.inr (Or.inl hf1), Or.inl hd1⟩
            | ok fs3 =>
              obtain ⟨hf3, hd3⟩ := rmdirSync_ok_char hrm
              exact ⟨Or.inr (Or.inl (by rw [hf3, hf1])),
                Or.inr (by rw [hd3, hd1])⟩
          · rw [if_neg hz]
            exact ⟨Or.inr (Or.inl hf1), Or.inl hd1⟩

/-- The self-deletion branch never touches files outside the two
candidate paths inside the script directory. -/
theorem selfDelete_lookup_ne (cfg : Config) (fs : FS) {p : List String}
    (h1 : p ≠ cfg.scriptDir ++ [cfg.scriptName])
    (h2 : p ≠ cfg.scriptDir ++ [".DS_store"]) :
    ((selfDelete cfg fs).2).files.lookup p = fs.files.lookup p := by
  rcases (selfDelete_char cfg fs).1 with h | h | h <;> rw [h]
  · exact lookup_filter_ne h1 _
  · rw [lookup_filter_ne h2, lookup_filter_ne h1]

theorem renameSync_lookup_frame {fs fs' : FS} {src dst p : List String}
    (h : renameSync fs src dst = .ok fs') (h2 : p ≠ src) (h3 : p ≠ dst) :
    fs'.files.lookup p = fs.files.lookup p := by
  obtain ⟨d, -, hfe, -⟩ := renameSync_ok_char h
  rw [hfe, lookup_setKey_other h3, lookup_filter_ne h2]

/-- Frame property of a whole run: a path different from every path the
script writes, renames or deletes keeps its file association (present
with the same content, or absent), no matter where the run stops. -/
theorem setupTypeScript_frame (cfg : Config) (fs : FS) {p : List String}
    (h1 : p ≠ projectRoot cfg ++ ["package.json"])
    (h2 : p ≠ projectRoot cfg ++ ["src", "main.js"])
    (h3 : p ≠ projectRoot cfg ++ ["src", "main.ts"])
    (h4 : p ≠ projectRoot cfg ++ ["src", "App.svelte"])
    (h5 : p ≠ projectRoot cfg ++ ["rollup.config.js"])
    (h6 : p ≠ projectRoot cfg ++ ["tsconfig.json"])
    (h7 : p ≠ projectRoot cfg ++ ["svelte.config.js"])
    (h8 : p ≠ projectRoot cfg ++ ["src", "global.d.ts"])
    (h9 : p ≠ projectRoot cfg ++ [".vscode", "extensions.json"])
    (h10 : cfg.argvTarget = none → p ≠ cfg.scriptDir ++ [cfg.scriptName])
    (h11 : cfg.argvTarget = none → p ≠ cfg.scriptDir ++ [".DS_store"]) :
    (setupTypeScript cfg fs).2.files.lookup p = fs.files.lookup p := by
  simp only [setupTypeScript]
  cases hr : readFileSync fs (projectRoot cfg ++ ["package.json"]) with
  | error e => rfl
  | ok d =>
    cases d with
    | text s => rfl
    | manifest q =>
      dsimp only
      cases hm : mergePackageJSON q with
      | error e => rfl
      | ok q' =>
        dsimp only
        cases hren : renameSync
            (writeFileSync fs (projectRoot cfg ++ ["package.json"])
              (.manifest q'))
            (projectRoot cfg ++ ["src", "main.js"])
            (projectRoot cfg ++ ["src", "main.ts"]) with
        | error e =>
          dsimp only
          exact writeFileSync_lookup_ne h1
        | ok fs2 =>
          dsimp only
          have hfs2 : fs2.files.lookup p = fs.files.lookup p := by
            rw [renameSync_lookup_frame hren h2 h3,
              writeFileSync_lookup_ne h1]
          cases ha : readFileSync fs2
              (projectRoot cfg ++ ["src", "App.svelte"]) with
          | error e => exact hfs2
          | ok d2 =>
            cases d2 with
            | manifest q2 => exact hfs2
            | text app =>
              dsimp only
              have hfs3 : (writeFileSync fs2
                  (projectRoot cfg ++ ["src", "App.svelte"])
                  (.text (appFileTransform app))).files.lookup p =
                  fs.files.lookup p := by
                rw [writeFileSync_lookup_ne h4, hfs2]
              cases hro : readFileSync
                  (writeFileSync fs2
                    (projectRoot cfg ++ ["src", "App.svelte"])
                    (.text (appFileTransform app)))
                  (projectRoot cfg ++ ["rollup.config.js"]) with
              | error e => exact hfs3
              | ok d3 =>
                cases d3 with
                | manifest q3 => exact hfs3
                | text rollup =>
                  dsimp only
                  have hfs7 : ∀ fsx, fsx.files.lookup p = fs.files.lookup p →
                      (writeFileSync (writeFileSync (writeFileSync
                        (writeFileSync fsx
                          (projectRoot cfg ++ ["rollup.config.js"])
                          (.text (rollupConfigTransform rollup)))
                          (projectRoot cfg ++ ["tsconfig.json"])
                          (.text tsconfigContent))
                          (projectRoot cfg ++ ["svelte.config.js"])
                          (.text svelteConfigContent))
                          (projectRoot cfg ++ ["src", "global.d.ts"])
                          (.text globalDtsContent)).files.lookup p =
                        fs.files.lookup p := by
                    intro fsx hx
                    rw [writeFileSync_lookup_ne h8,
                      writeFileSync_lookup_ne h7,
                      writeFileSync_lookup_ne h6,
                      writeFileSync_lookup_ne h5, hx]
                  cases harg : cfg.argvTarget with
                  | some r =>
                    dsimp only
                    rw [writeFileSync_lookup_ne h9]
                    show (mkdirSyncRec _ _).files.lookup p = _
                    exact hfs7 _ hfs3
                  | none =>
                    dsimp only
                    cases hsd : selfDelete cfg
                        (writeFileSync (writeFileSync (writeFileSync
                          (writeFileSync (writeFileSync fs2
                            (projectRoot cfg ++ ["src", "App.svelte"])
                            (.text (appFileTransform app)))
                            (projectRoot cfg ++ ["rollup.config.js"])
                            (.text (rollupConfigTransform rollup)))
                            (projectRoot cfg ++ ["tsconfig.json"])
                            (.text tsconfigContent))
                            (projectRoot cfg ++ ["svelte.config.js"])
                            (.text svelteConfigContent))
                            (projectRoot cfg ++ ["src", "global.d.ts"])
                            (.text globalDtsContent)) with
                    | mk e fsx =>
                      have hsdl : fsx.files.lookup p = fs.files.lookup p := by
                        have := selfDelete_lookup_ne cfg
                          (writeFileSync (writeFileSync (writeFileSync
                            (writeFileSync (writeFileSync fs2
                              (projectRoot cfg ++ ["src", "App.svelte"])
                              (.text (appFileTransform app)))
                              (projectRoot cfg ++ ["rollup.config.js"])
                              (.text (rollupConfigTransform rollup)))
                              (projectRoot cfg ++ ["tsconfig.json"])
                              (.text tsconfigContent))
                              (projectRoot cfg ++ ["svelte.config.js"])
                              (.text svelteConfigContent))
                              (projectRoot cfg ++ ["src", "global.d.ts"])
                              (.text globalDtsContent)) (h10 harg) (h11 harg)
                        rw [hsd] at this
                        dsimp only at this
                        rw [this]
                        exact hfs7 _ hfs3
                      cases e with
                      | none =>
                        dsimp only
                        rw [writeFileSync_lookup_ne h9]
                        exact hsdl
                      | some err => exact hsdl

/-- Two-segment variant: a path differs from a path two segments below
another root whenever the final names differ. -/
theorem path2_ne_of_last_ne {d1 d2 : List String} {m n1 n2 : String}
    (h : n1 ≠ n2) : d1 ++ [n1] ≠ d2 ++ [m, n2] := by
  have e : d2 ++ [m, n2] = (d2 ++ [m]) ++ [n2] := by simp
  rw [e]
  exact path_ne_of_last_ne h

/-- With an explicit target argument, the run never removes a directory
and only ever adds to the directory table. -/
theorem setupTypeScript_dirs_explicit (cfg : Config) (fs : FS)
    (r : List String) (harg : cfg.argvTarget = some r) {d : List String}
    (hd : d ∈ fs.dirs) : d ∈ (setupTypeScript cfg fs).2.dirs := by
  simp only [setupTypeScript]
  cases hr : readFileSync fs (projectRoot cfg ++ ["package.json"]) with
  | error e => exact hd
  | ok d0 =>
    cases d0 with
    | text s => exact hd
    | manifest q =>
      dsimp only
      cases hm : mergePackageJSON q with
      | error e => exact hd
      | ok q' =>
        dsimp only
        cases hren : renameSync
            (writeFileSync fs (projectRoot cfg ++ ["package.json"])
              (.manifest q'))
            (projectRoot cfg ++ ["src", "main.js"])
            (projectRoot cfg ++ ["src", "main.ts"]) with
        | error e => exact hd
        | ok fs2 =>
          dsimp only
          obtain ⟨d2, -, -, hdir2⟩ := renameSync_ok_char hren
          have hd2 : d ∈ fs2.dirs := by rw [hdir2]; exact hd
          cases ha : readFileSync fs2
              (projectRoot cfg ++ ["src", "App.svelte"]) with
          | error e => exact hd2
          | ok dd =>
            cases dd with
            | manifest q2 => exact hd2
            | text app =>
              dsimp only
              cases hro : readFileSync
                  (writeFileSync fs2
                    (projectRoot cfg ++ ["src", "App.svelte"])
                    (.text (appFileTransform app)))
                  (projectRoot cfg ++ ["rollup.config.js"]) with
              | error e => exact hd2
              | ok d3 =>
                cases d3 with
                | manifest q3 => exact hd2
                | text rollup =>
                  rw [harg]
                  dsimp only
                  exact List.mem_append_left _ hd2

/-- Claim C7: for every invocation with an explicit target-directory
argument, the conversion leaves the script's own file, its containing
directory, and any `.DS_store` file in that directory untouched, wherever
the script directory is located; no deletion is performed (the script's
file name `setupTypeScript.js` is not one of the file names the
conversion writes, which the hypothesis on the name records). -/
theorem explicit_target_keeps_script (cfg : Config) (fs : FS)
    (r : List String) (harg : cfg.argvTarget = some r)
    (hname : cfg.scriptName ∉ (["package.json", "main.js", "main.ts",
      "App.svelte", "rollup.config.js", "tsconfig.json",
      "svelte.config.js", "global.d.ts", "extensions.json"] : List String)) :
    (setupTypeScript cfg fs).2.files.lookup
        (cfg.scriptDir ++ [cfg.scriptName]) =
      fs.files.lookup (cfg.scriptDir ++ [cfg.scriptName]) ∧
    (setupTypeScript cfg fs).2.files.lookup
        (cfg.scriptDir ++ [".DS_store"]) =
      fs.files.lookup (cfg.scriptDir ++ [".DS_store"]) ∧
    (cfg.scriptDir ∈ fs.dirs →
      cfg.scriptDir ∈ (setupTypeScript cfg fs).2.dirs) := by
  simp only [List.mem_cons, List.not_mem_nil, or_false, not_or] at hname
  obtain ⟨n1, n2, n3, n4, n5, n6, n7, n8, n9⟩ := hname
  refine ⟨?_, ?_, fun hd => setupTypeScript_dirs_explicit cfg fs r harg hd⟩
  · exact setupTypeScript_frame cfg fs
      (path_ne_of_last_ne n1) (path2_ne_of_last_ne n2)
      (path2_ne_of_last_ne n3) (path2_ne_of_last_ne n4)
      (path_ne_of_last_ne n5) (path_ne_of_last_ne n6)
      (path_ne_of_last_ne n7) (path2_ne_of_last_ne n8)
      (path2_ne_of_last_ne n9)
      (fun hnone => absurd (hnone ▸ harg) (by simp))
      (fun hnone => absurd (hnone ▸ harg) (by simp))
  · exact setupTypeScript_frame cfg fs
      (path_ne_of_last_ne (by decide)) (path2_ne_of_last_ne (by decide))
      (path2_ne_of_last_ne (by decide)) (path2_ne_of_last_ne (by decide))
      (path_ne_of_last_ne (by decide)) (path_ne_of_last_ne (by decide))
      (path_ne_of_last_ne (by decide)) (path2_ne_of_last_ne (by decide))
      (path2_ne_of_last_ne (by decide))
      (fun hnone => absurd (hnone ▸ harg) (by simp))
      (fun hnone => absurd (hnone ▸ harg) (by simp))

/-- Witness for the explicit-argument frame theorem on a concrete
template: the script file survives a full successful run untouched. -/
theorem explicit_target_keeps_script_witness :
    ((⟨some ["app"], ["app", "scripts"], "setupTypeScript.js"⟩ :
        Config).argvTarget = some ["app"]) ∧
    (setupTypeScript ⟨some ["app"], ["app", "scripts"],
        "setupTypeScript.js"⟩ templateFS).2.files.lookup
      (["app", "scripts"] ++ ["setupTypeScript.js"]) =
      templateFS.files.lookup
        (["app", "scripts"] ++ ["setupTypeScript.js"]) :=
  ⟨rfl, (explicit_target_keeps_script
    ⟨some ["app"], ["app", "scripts"], "setupTypeScript.js"⟩ templateFS
    ["app"] rfl (by decide)).1⟩

/-- Claim C10: when the manifest parses as a JSON object but lacks a
`devDependencies` or a `scripts` member, the merge throws a TypeError
before any file is written: the run aborts with the TypeError and the
target filesystem is returned completely unchanged. -/
theorem manifest_missing_member_aborts_unchanged (cfg : Config) (fs : FS)
    (q : PackageJSON)
    (hread : fs.files.lookup (projectRoot cfg ++ ["package.json"]) =
      some (.manifest q))
    (hmiss : q.devDependencies = none ∨ q.scripts = none) :
    setupTypeScript cfg fs = (some assignUndefinedError, fs) := by
  have hr : readFileSync fs (projectRoot cfg ++ ["package.json"]) =
      .ok (.manifest q) := by
    unfold readFileSync
    rw [hread]
  simp only [setupTypeScript, hr]
  rcases hmiss with h | h
  · simp [mergePackageJSON, h]
  · cases hdd : q.devDependencies with
    | none => simp [mergePackageJSON, hdd]
    | some dd => simp [mergePackageJSON, hdd, h]

/-- Witness for the abort theorem at a concrete filesystem whose manifest
has no `scripts` member. -/
theorem manifest_missing_member_aborts_unchanged_witness :
    ((FS.mk [(["app", "package.json"], .manifest manifestNoScripts)]
        [["app"]]).files.lookup
      (projectRoot ⟨some ["app"], ["tools"], "setupTypeScript.js"⟩ ++
        ["package.json"]) = some (.manifest manifestNoScripts)) ∧
    setupTypeScript ⟨some ["app"], ["tools"], "setupTypeScript.js"⟩
        (FS.mk [(["app", "package.json"], .manifest manifestNoScripts)]
          [["app"]]) =
      (some assignUndefinedError,
        FS.mk [(["app", "package.json"], .manifest manifestNoScripts)]
          [["app"]]) :=
  ⟨rfl, manifest_missing_member_aborts_unchanged
    ⟨some ["app"], ["tools"], "setupTypeScript.js"⟩
    (FS.mk [(["app", "package.json"], .manifest manifestNoScripts)]
      [["app"]])
    manifestNoScripts rfl (Or.inr rfl)⟩

theorem setKey_keys_of_any {α β : Type} [BEq α] [LawfulBEq α]
    {m : List (α × β)} {k : α} {v : β}
    (h : m.any (fun p => p.1 == k) = true) :
    (setKey m k v).map Prod.fst = m.map Prod.fst := by
  unfold setKey
  rw [if_pos h, List.map_map]
  apply List.map_congr_left
  intro p hp
  by_cases hpk : (p.1 == k) = true
  · simp only [Function.comp_apply, hpk, if_true]
    exact ((by simpa using hpk : p.1 = k)).symm
  · simp [hpk]

theorem setKey_keys_of_not_any {α β : Type} [BEq α] [LawfulBEq α]
    {m : List (α × β)} {k : α} {v : β}
    (h : m.any (fun p => p.1 == k) = false) :
    (setKey m k v).map Prod.fst = m.map Prod.fst ++ [k] := by
  unfold setKey
  rw [h]
  simp

theorem mem_keys_setKey {α β : Type} [BEq α] [LawfulBEq α]
    {m : List (α × β)} {k : α} {v : β} {p : α}
    (h : p ∈ (setKey m k v).map Prod.fst) : p = k ∨ p ∈ m.map Prod.fst := by
  by_cases ha : m.any (fun r => r.1 == k) = true
  · rw [setKey_keys_of_any ha] at h
    exact Or.inr h
  · rw [setKey_keys_of_not_any (Bool.eq_false_iff.mpr ha)] at h
    rcases List.mem_append.mp h with h1 | h1
    · exact Or.inr h1
    · exact Or.inl (by simpa using h1)

theorem nodup_keys_setKey {α β : Type} [BEq α] [LawfulBEq α]
    {m : List (α × β)} {k : α} {v : β}
    (h : (m.map Prod.fst).Nodup) : ((setKey m k v).map Prod.fst).Nodup := by
  by_cases ha : m.any (fun r => r.1 == k) = true
  · rw [setKey_keys_of_any ha]
    exact h
  · rw [setKey_keys_of_not_any (Bool.eq_false_iff.mpr ha)]
    refine List.Nodup.append h (List.nodup_singleton k) ?_
    intro a hma hak
    rcases List.mem_map.mp hma with ⟨r, hr, hfst⟩
    have hak' : a = k := by simpa using hak
    apply ha
    rw [List.any_eq_true]
    exact ⟨r, hr, by rw [hfst, hak']; simp⟩

theorem mem_keys_filter {α β : Type} {m : List (α × β)}
    {pred : α × β → Bool} {p : α}
    (h : p ∈ (m.filter pred).map Prod.fst) : p ∈ m.map Prod.fst :=
  (List.Sublist.map Prod.fst (List.filter_sublist m)).subset h

theorem nodup_keys_filter {α β : Type} {m : List (α × β)}
    {pred : α × β → Bool}
    (h : (m.map Prod.fst).Nodup) : ((m.filter pred).map Prod.fst).Nodup :=
  List.Nodup.sublist (List.Sublist.map Prod.fst (List.filter_sublist m)) h

/-- Characterization of a successful run: the manifest was present and
merged, `src/main.js` existed and was renamed, the seven unconditional
mutations produced an intermediate filesystem `fs7` with the listed
properties, the self-deletion branch ran (successfully) exactly when no
argument was given, and the final filesystem adds the `.vscode`
directory and its recommendation file. -/
theorem setupTypeScript_success_char (cfg : Config) (fs : FS)
    (hok : (setupTypeScript cfg fs).1 = none) :
    ∃ q q' c fs7 fs8,
      fs.files.lookup (projectRoot cfg ++ ["package.json"]) =
        some (.manifest q) ∧
      mergePackageJSON q = .ok q' ∧
      fs.files.lookup (projectRoot cfg ++ ["src", "main.js"]) = some c ∧
      fs7.files.lookup (projectRoot cfg ++ ["src", "main.js"]) = none ∧
      fs7.files.lookup (projectRoot cfg ++ ["src", "main.ts"]) = some c ∧
      fs7.files.lookup (projectRoot cfg ++ ["src", "global.d.ts"]) =
        some (.text globalDtsContent) ∧
      fs7.files.lookup (projectRoot cfg ++ ["package.json"]) =
        some (.manifest q') ∧
      fs7.dirs = fs.dirs ∧
      (∀ p, p ≠ projectRoot cfg ++ ["package.json"] →
        p ≠ projectRoot cfg ++ ["src", "main.js"] →
        p ≠ projectRoot cfg ++ ["src", "main.ts"] →
        p ≠ projectRoot cfg ++ ["src", "App.svelte"] →
        p ≠ projectRoot cfg ++ ["rollup.config.js"] →
        p ≠ projectRoot cfg ++ ["tsconfig.json"] →
        p ≠ projectRoot cfg ++ ["svelte.config.js"] →
        p ≠ projectRoot cfg ++ ["src", "global.d.ts"] →
        fs7.files.lookup p = fs.files.lookup p) ∧
      (∀ p, p ∈ fs7.files.map Prod.fst →
        p ∈ fs.files.map Prod.fst ∨
        p ∈ [projectRoot cfg ++ ["package.json"],
             projectRoot cfg ++ ["src", "main.ts"],
             projectRoot cfg ++ ["src", "App.svelte"],
             projectRoot cfg ++ ["rollup.config.js"],
             projectRoot cfg ++ ["tsconfig.json"],
             projectRoot cfg ++ ["svelte.config.js"],
             projectRoot cfg ++ ["src", "global.d.ts"]]) ∧
      ((fs.files.map Prod.fst).Nodup → (fs7.files.map Prod.fst).Nodup) ∧
      (cfg.argvTarget = none → selfDelete cfg fs7 = (none, fs8)) ∧
      (∀ r, cfg.argvTarget = some r → fs8 = fs7) ∧
      (setupTypeScript cfg fs).2 =
        writeFileSync (mkdirSyncRec fs8 (projectRoot cfg ++ [".vscode"]))
          (projectRoot cfg ++ [".vscode", "extensions.json"])
          (.text extensionsJsonContent) := by
  cases hr : readFileSync fs (projectRoot cfg ++ ["package.json"]) with
  | error e =>
    exfalso
    have heq : setupTypeScript cfg fs = (some e, fs) := by
      simp only [setupTypeScript]; rw [hr]
    rw [heq] at hok; simp at hok
  | ok d0 =>
    cases d0 with
    | text s =>
      exfalso
      have heq : setupTypeScript cfg fs =
          (some "SyntaxError: package.json is not valid JSON", fs) := by
        simp only [setupTypeScript]; rw [hr]
      rw [heq] at hok; simp at hok
    | manifest q =>
      have hman : fs.files.lookup (projectRoot cfg ++ ["package.json"]) =
          some (.manifest q) := by
        unfold readFileSync at hr
        cases hl : fs.files.lookup (projectRoot cfg ++ ["package.json"]) with
        | none => rw [hl] at hr; cases hr
        | some dd => rw [hl] at hr; injection hr with hr; rw [hr]
      cases hm : mergePackageJSON q with
      | error e =>
        exfalso
        have heq : setupTypeScript cfg fs = (some e, fs) := by
          simp only [setupTypeScript]; rw [hr]; dsimp only; rw [hm]
        rw [heq] at hok; simp at hok
      | ok q' =>
        cases hren : renameSync
            (writeFileSync fs (projectRoot cfg ++ ["package.json"])
              (.manifest q'))
            (projectRoot cfg ++ ["src", "main.js"])
            (projectRoot cfg ++ ["src", "main.ts"]) with
        | error e =>
          exfalso
          have heq : setupTypeScript cfg fs = (some e,
              writeFileSync fs (projectRoot cfg ++ ["package.json"])
                (.manifest q')) := by
            simp only [setupTypeScript]; rw [hr]; dsimp only; rw [hm]
            dsimp only; rw [hren]
          rw [heq] at hok; simp at hok
        | ok fs2 =>
          obtain ⟨c, hlook, hf2, hd2⟩ := renameSync_ok_char hren
          rw [writeFileSync_lookup_ne (append_root_ne (by decide))] at hlook
          cases ha : readFileSync fs2
              (projectRoot cfg ++ ["src", "App.svelte"]) with
          | error e =>
            exfalso
            have heq : setupTypeScript cfg fs = (some e, fs2) := by
              simp only [setupTypeScript]; rw [hr]; dsimp only; rw [hm]
              dsimp only; rw [hren]; dsimp only; rw [ha]
            rw [heq] at hok; simp at hok
          | ok d2 =>
            cases d2 with
            | manifest q2 =>
              exfalso
              have heq : setupTypeScript cfg fs =
                  (some "TypeError: App.svelte is not text", fs2) := by
                simp only [setupTypeScript]; rw [hr]; dsimp only; rw [hm]
                dsimp only; rw [hren]; dsimp only; rw [ha]
              rw [heq] at hok; simp at hok
            | text app =>
              cases hro : readFileSync
                  (writeFileSync fs2
                    (projectRoot cfg ++ ["src", "App.svelte"])
                    (.text (appFileTransform app)))
                  (projectRoot cfg ++ ["rollup.config.js"]) with
              | error e =>
                exfalso
                have heq : setupTypeScript cfg fs = (some e,
                    writeFileSync fs2
                      (projectRoot cfg ++ ["src", "App.svelte"])
                      (.text (appFileTransform app))) := by
                  simp only [setupTypeScript]; rw [hr]; dsimp only; rw [hm]
                  dsimp only; rw [hren]; dsimp only; rw [ha]; dsimp only
                  rw [hro]
                rw [heq] at hok; simp at hok
              | ok d3 =>
                cases d3 with
                | manifest q3 =>
                  exfalso
                  have heq : setupTypeScript cfg fs =
                      (some "TypeError: rollup.config.js is not text",
                        writeFileSync fs2
                          (projectRoot cfg ++ ["src", "App.svelte"])
                          (.text (appFileTransform app))) := by
                    simp only [setupTypeScript]; rw [hr]; dsimp only
                    rw [hm]; dsimp only; rw [hren]; dsimp only; rw [ha]
                    dsimp only; rw [hro]
                  rw [heq] at hok; simp at hok
                | text rollup =>
                  have hA4 : (writeFileSync (writeFileSync (writeFileSync (writeFileSync
                      (writeFileSync fs2
                        (projectRoot cfg ++ ["src", "App.svelte"])
                        (.text (appFileTransform app)))
                        (projectRoot cfg ++ ["rollup.config.js"])
                        (.text (rollupConfigTransform rollup)))
                        (projectRoot cfg ++ ["tsconfig.json"])
                        (.text tsconfigContent))
                        (projectRoot cfg ++ ["svelte.config.js"])
                        (.text svelteConfigContent))
                        (projectRoot cfg ++ ["src", "global.d.ts"])
                        (.text globalDtsContent)).files.lookup
                      (projectRoot cfg ++ ["src", "main.js"]) = none := by
                    rw [writeFileSync_lookup_ne (append_root_ne (by decide)),
                      writeFileSync_lookup_ne (append_root_ne (by decide)),
                      writeFileSync_lookup_ne (append_root_ne (by decide)),
                      writeFileSync_lookup_ne (append_root_ne (by decide)),
                      writeFileSync_lookup_ne (append_root_ne (by decide)),
                      hf2, lookup_setKey_other (append_root_ne (by decide)),
                      lookup_filter_self]
                  have hA5 : (writeFileSync (writeFileSync (writeFileSync (writeFileSync
                      (writeFileSync fs2
                        (projectRoot cfg ++ ["src", "App.svelte"])
                        (.text (appFileTransform app)))
                        (projectRoot cfg ++ ["rollup.config.js"])
                        (.text (rollupConfigTransform rollup)))
                        (projectRoot cfg ++ ["tsconfig.json"])
                        (.text tsconfigContent))
                        (projectRoot cfg ++ ["svelte.config.js"])
                        (.text svelteConfigContent))
                        (projectRoot cfg ++ ["src", "global.d.ts"])
                        (.text globalDtsContent)).files.lookup
                      (projectRoot cfg ++ ["src", "main.ts"]) = some c := by
                    rw [writeFileSync_lookup_ne (append_root_ne (by decide)),
                      writeFileSync_lookup_ne (append_root_ne (by decide)),
                      writeFileSync_lookup_ne (append_root_ne (by decide)),
                      writeFileSync_lookup_ne (append_root_ne (by decide)),
                      writeFileSync_lookup_ne (append_root_ne (by decide)),
                      hf2, lookup_setKey_self]
                  have hA6 : (writeFileSync (writeFileSync (writeFileSync (writeFileSync
                      (writeFileSync fs2
                        (projectRoot cfg ++ ["src", "App.svelte"])
                        (.text (appFileTransform app)))
                        (projectRoot cfg ++ ["rollup.config.js"])
                        (.text (rollupConfigTransform rollup)))
                        (projectRoot cfg ++ ["tsconfig.json"])
                        (.text tsconfigContent))
                        (projectRoot cfg ++ ["svelte.config.js"])
                        (.text svelteConfigContent))
                        (projectRoot cfg ++ ["src", "global.d.ts"])
                        (.text globalDtsContent)).files.lookup
                      (projectRoot cfg ++ ["src", "global.d.ts"]) =
                      some (.text globalDtsContent) :=
                    writeFileSync_lookup_self
                  have hA7 : (writeFileSync (writeFileSync (writeFileSync (writeFileSync
                      (writeFileSync fs2
                        (projectRoot cfg ++ ["src", "App.svelte"])
                        (.text (appFileTransform app)))
                        (projectRoot cfg ++ ["rollup.config.js"])
                        (.text (rollupConfigTransform rollup)))
                        (projectRoot cfg ++ ["tsconfig.json"])
                        (.text tsconfigContent))
                        (projectRoot cfg ++ ["svelte.config.js"])
                        (.text svelteConfigContent))
                        (projectRoot cfg ++ ["src", "global.d.ts"])
                        (.text globalDtsContent)).files.lookup
                      (projectRoot cfg ++ ["package.json"]) =
                      some (.manifest q') := by
                    rw [writeFileSync_lookup_ne (append_root_ne (by decide)),
                      writeFileSync_lookup_ne (append_root_ne (by decide)),
                      writeFileSync_lookup_ne (append_root_ne (by decide)),
                      writeFileSync_lookup_ne (append_root_ne (by decide)),
                      writeFileSync_lookup_ne (append_root_ne (by decide)),
                      hf2, lookup_setKey_other (append_root_ne (by decide)),
                      lookup_filter_ne (append_root_ne (by decide)),
                      writeFileSync_lookup_self]
                  have hA8 : (writeFileSync (writeFileSync (writeFileSync (writeFileSync
                      (writeFileSync fs2
                        (projectRoot cfg ++ ["src", "App.svelte"])
                        (.text (appFileTransform app)))
                        (projectRoot cfg ++ ["rollup.config.js"])
                        (.text (rollupConfigTransform rollup)))
                        (projectRoot cfg ++ ["tsconfig.json"])
                        (.text tsconfigContent))
                        (projectRoot cfg ++ ["svelte.config.js"])
                        (.text svelteConfigContent))
                        (projectRoot cfg ++ ["src", "global.d.ts"])
                        (.text globalDtsContent)).dirs = fs.dirs := hd2
                  have hA9 : ∀ p,
                      p ≠ projectRoot cfg ++ ["package.json"] →
                      p ≠ projectRoot cfg ++ ["src", "main.js"] →
                      p ≠ projectRoot cfg ++ ["src", "main.ts"] →
                      p ≠ projectRoot cfg ++ ["src", "App.svelte"] →
                      p ≠ projectRoot cfg ++ ["rollup.config.js"] →
                      p ≠ projectRoot cfg ++ ["tsconfig.json"] →
                      p ≠ projectRoot cfg ++ ["svelte.config.js"] →
                      p ≠ projectRoot cfg ++ ["src", "global.d.ts"] →
                      (writeFileSync (writeFileSync (writeFileSync (writeFileSync
                      (writeFileSync fs2
                        (projectRoot cfg ++ ["src", "App.svelte"])
                        (.text (appFileTransform app)))
                        (projectRoot cfg ++ ["rollup.config.js"])
                        (.text (rollupConfigTransform rollup)))
                        (projectRoot cfg ++ ["tsconfig.json"])
                        (.text tsconfigContent))
                        (projectRoot cfg ++ ["svelte.config.js"])
                        (.text svelteConfigContent))
                        (projectRoot cfg ++ ["src", "global.d.ts"])
                        (.text globalDtsContent)).files.lookup p = fs.files.lookup p := by
                    intro p k1 k2 k3 k4 k5 k6 k7 k8
                    rw [writeFileSync_lookup_ne k8,
                      writeFileSync_lookup_ne k7,
                      writeFileSync_lookup_ne k6,
                      writeFileSync_lookup_ne k5,
                      writeFileSync_lookup_ne k4,
                      hf2, lookup_setKey_other k3, lookup_filter_ne k2,
                      writeFileSync_lookup_ne k1]
                  have hA10 : ∀ p, p ∈ (writeFileSync (writeFileSync (writeFileSync (writeFileSync
                      (writeFileSync fs2
                        (projectRoot cfg ++ ["src", "App.svelte"])
                        (.text (appFileTransform app)))
                        (projectRoot cfg ++ ["rollup.config.js"])
                        (.text (rollupConfigTransform rollup)))
                        (projectRoot cfg ++ ["tsconfig.json"])
                        (.text tsconfigContent))
                        (projectRoot cfg ++ ["svelte.config.js"])
                        (.text svelteConfigContent))
                        (projectRoot cfg ++ ["src", "global.d.ts"])
                        (.text globalDtsContent)).files.map Prod.fst →
                      p ∈ fs.files.map Prod.fst ∨
                      p ∈ [projectRoot cfg ++ ["package.json"],
                           projectRoot cfg ++ ["src", "main.ts"],
                           projectRoot cfg ++ ["src", "App.svelte"],
                           projectRoot cfg ++ ["rollup.config.js"],
                           projectRoot cfg ++ ["tsconfig.json"],
                           projectRoot cfg ++ ["svelte.config.js"],
                           projectRoot cfg ++ ["src", "global.d.ts"]] := by
                    intro p hp
                    simp only [writeFileSync] at hp
                    rcases mem_keys_setKey hp with rfl | hp
                    · exact Or.inr (by simp)
                    rcases mem_keys_setKey hp with rfl | hp
                    · exact Or.inr (by simp)
                    rcases mem_keys_setKey hp with rfl | hp
                    · exact Or.inr (by simp)
                    rcases mem_keys_setKey hp with rfl | hp
                    · exact Or.inr (by simp)
                    rcases mem_keys_setKey hp with rfl | hp
                    · exact Or.inr (by simp)
                    rw [hf2] at hp
                    rcases mem_keys_setKey hp with rfl | hp
                    · exact Or.inr (by simp)
                    have hp2 := mem_keys_filter hp
                    simp only [writeFileSync] at hp2
                    rcases mem_keys_setKey hp2 with rfl | hp2
                    · exact Or.inr (by simp)
                    · exact Or.inl hp2
                  have hA11 : (fs.files.map Prod.fst).Nodup →
                      ((writeFileSync (writeFileSync (writeFileSync (writeFileSync
                      (writeFileSync fs2
                        (projectRoot cfg ++ ["src", "App.svelte"])
                        (.text (appFileTransform app)))
                        (projectRoot cfg ++ ["rollup.config.js"])
                        (.text (rollupConfigTransform rollup)))
                        (projectRoot cfg ++ ["tsconfig.json"])
                        (.text tsconfigContent))
                        (projectRoot cfg ++ ["svelte.config.js"])
                        (.text svelteConfigContent))
                        (projectRoot cfg ++ ["src", "global.d.ts"])
                        (.text globalDtsContent)).files.map Prod.fst).Nodup := by
                    intro hnd
                    simp only [writeFileSync]
                    apply nodup_keys_setKey
                    apply nodup_keys_setKey
                    apply nodup_keys_setKey
                    apply nodup_keys_setKey
                    apply nodup_keys_setKey
                    rw [hf2]
                    apply nodup_keys_setKey
                    apply nodup_keys_filter
                    simp only [writeFileSync]
                    exact nodup_keys_setKey hnd
                  cases harg : cfg.argvTarget with
                  | some r =>
                    have heq : setupTypeScript cfg fs =
                        (none, writeFileSync
                          (mkdirSyncRec (writeFileSync (writeFileSync (writeFileSync (writeFileSync
                      (writeFileSync fs2
                        (projectRoot cfg ++ ["src", "App.svelte"])
                        (.text (appFileTransform app)))
                        (projectRoot cfg ++ ["rollup.config.js"])
                        (.text (rollupConfigTransform rollup)))
                        (projectRoot cfg ++ ["tsconfig.json"])
                        (.text tsconfigContent))
                        (projectRoot cfg ++ ["svelte.config.js"])
                        (.text svelteConfigContent))
                        (projectRoot cfg ++ ["src", "global.d.ts"])
                        (.text globalDtsContent))
                            (projectRoot cfg ++ [".vscode"]))
                          (projectRoot cfg ++ [".vscode", "extensions.json"])
                          (.text extensionsJsonContent)) := by
                      simp only [setupTypeScript]
                      rw [hr]; dsimp only; rw [hm]; dsimp only; rw [hren]
                      dsimp only; rw [ha]; dsimp only; rw [hro]; dsimp only
                      rw [harg]
                    exact ⟨q, q', c, writeFileSync (writeFileSync (writeFileSync (writeFileSync
                      (writeFileSync fs2
                        (projectRoot cfg ++ ["src", "App.svelte"])
                        (.text (appFileTransform app)))
                        (projectRoot cfg ++ ["rollup.config.js"])
                        (.text (rollupConfigTransform rollup)))
                        (projectRoot cfg ++ ["tsconfig.json"])
                        (.text tsconfigContent))
                        (projectRoot cfg ++ ["svelte.config.js"])
                        (.text svelteConfigContent))
                        (projectRoot cfg ++ ["src", "global.d.ts"])
                        (.text globalDtsContent), writeFileSync (writeFileSync (writeFileSync (writeFileSync
                      (writeFileSync fs2
                        (projectRoot cfg ++ ["src", "App.svelte"])
                        (.text (appFileTransform app)))
                        (projectRoot cfg ++ ["rollup.config.js"])
                        (.text (rollupConfigTransform rollup)))
                        (projectRoot cfg ++ ["tsconfig.json"])
                        (.text tsconfigContent))
                        (projectRoot cfg ++ ["svelte.config.js"])
                        (.text svelteConfigContent))
                        (projectRoot cfg ++ ["src", "global.d.ts"])
                        (.text globalDtsContent), hman, hm, hlook, hA4, hA5,
                      hA6, hA7, hA8, hA9, hA10, hA11,
                      fun h => Option.noConfusion h,
                      fun r' _ => rfl, by rw [heq]⟩
                  | none =>
                    cases hsd : selfDelete cfg (writeFileSync (writeFileSync (writeFileSync (writeFileSync
                      (writeFileSync fs2
                        (projectRoot cfg ++ ["src", "App.svelte"])
                        (.text (appFileTransform app)))
                        (projectRoot cfg ++ ["rollup.config.js"])
                        (.text (rollupConfigTransform rollup)))
                        (projectRoot cfg ++ ["tsconfig.json"])
                        (.text tsconfigContent))
                        (projectRoot cfg ++ ["svelte.config.js"])
                        (.text svelteConfigContent))
                        (projectRoot cfg ++ ["src", "global.d.ts"])
                        (.text globalDtsContent)) with
                    | mk e fsx =>
                      cases e with
                      | some err =>
                        exfalso
                        have heq : setupTypeScript cfg fs =
                            (some err, fsx) := by
                          simp only [setupTypeScript]
                          rw [hr]; dsimp only; rw [hm]; dsimp only; rw [hren]
                          dsimp only; rw [ha]; dsimp only; rw [hro]
                          dsimp only; rw [harg]; dsimp only; rw [hsd]
                        rw [heq] at hok; simp at hok
                      | none =>
                        have heq : setupTypeScript cfg fs =
                            (none, writeFileSync
                              (mkdirSyncRec fsx
                                (projectRoot cfg ++ [".vscode"]))
                              (projectRoot cfg ++
                                [".vscode", "extensions.json"])
                              (.text extensionsJsonContent)) := by
                          simp only [setupTypeScript]
                          rw [hr]; dsimp only; rw [hm]; dsimp only; rw [hren]
                          dsimp only; rw [ha]; dsimp only; rw [hro]
                          dsimp only; rw [harg]; dsimp only; rw [hsd]
                        exact ⟨q, q', c, writeFileSync (writeFileSync (writeFileSync (writeFileSync
                      (writeFileSync fs2
                        (projectRoot cfg ++ ["src", "App.svelte"])
                        (.text (appFileTransform app)))
                        (projectRoot cfg ++ ["rollup.config.js"])
                        (.text (rollupConfigTransform rollup)))
                        (projectRoot cfg ++ ["tsconfig.json"])
                        (.text tsconfigContent))
                        (projectRoot cfg ++ ["svelte.config.js"])
                        (.text svelteConfigContent))
                        (projectRoot cfg ++ ["src", "global.d.ts"])
                        (.text globalDtsContent), fsx, hman, hm, hlook, hA4, hA5,
                          hA6, hA7, hA8, hA9, hA10, hA11, fun _ => hsd,
                          fun r' hr' => Option.noConfusion hr',
                          by rw [heq]⟩

theorem mkdirSyncRec_files (fs : FS) (d : List String) :
    (mkdirSyncRec fs d).files = fs.files := rfl

/-- A path directly inside the target's `src` directory differs from any
path directly inside a script directory that is not that `src`
directory. -/
theorem src_path_ne_script (cfg : Config) (n : String)
    (hdir : cfg.scriptDir ≠ projectRoot cfg ++ ["src"]) (s : String) :
    projectRoot cfg ++ ["src", n] ≠ cfg.scriptDir ++ [s] := by
  apply path_ne_of_dropLast_ne
  rw [show projectRoot cfg ++ ["src", n] =
      (projectRoot cfg ++ ["src"]) ++ [n] from by simp,
    List.dropLast_concat, List.dropLast_concat]
  exact fun he => hdir he.symm

/-- Claim C6, counterexample to the destination-exists failure mode: on
a template whose `src/main.ts` already exists, the conversion run does
NOT fail — `fs.renameSync` follows POSIX `rename(2)` semantics and
silently replaces the existing destination with the content of
`src/main.js`. -/
theorem main_rename_overwrites_counterexample :
    templateFSPreTs.files.lookup (["app", "src", "main.ts"]) =
      some (.text ("stale content").data) ∧
    (setupTypeScript ⟨some ["app"], ["tools"], "setupTypeScript.js"⟩
      templateFSPreTs).1 = none ∧
    (setupTypeScript ⟨some ["app"], ["tools"], "setupTypeScript.js"⟩
      templateFSPreTs).2.files.lookup (["app", "src", "main.ts"]) =
      some (.text ("import App from './App.svelte';").data) :=
  ⟨by decide, by decide, by decide⟩

/-- Claim C6 (amended): on every successful run the plain entry point
`src/main.js` no longer exists and `src/main.ts` exists with
byte-identical content (the hypothesis that the script's own directory
is not the target's `src` directory keeps the self-deletion branch away
from these two paths); the rename step fails fatally (ENOENT) when the
source `src/main.js` does not exist.  Contrary to the claim, a
pre-existing destination `src/main.ts` is not an error: it is silently
overwritten, per POSIX `rename(2)` semantics. -/
theorem main_entry_renamed (cfg : Config) (fs : FS)
    (hdir : cfg.scriptDir ≠ projectRoot cfg ++ ["src"]) :
    ((setupTypeScript cfg fs).1 = none →
      ∃ c, fs.files.lookup (projectRoot cfg ++ ["src", "main.js"]) =
          some c ∧
        (setupTypeScript cfg fs).2.files.lookup
          (projectRoot cfg ++ ["src", "main.js"]) = none ∧
        (setupTypeScript cfg fs).2.files.lookup
          (projectRoot cfg ++ ["src", "main.ts"]) = some c) ∧
    (∀ q q', fs.files.lookup (projectRoot cfg ++ ["package.json"]) =
        some (.manifest q) →
      mergePackageJSON q = .ok q' →
      fs.files.lookup (projectRoot cfg ++ ["src", "main.js"]) = none →
      (setupTypeScript cfg fs).1 = some "ENOENT") := by
  constructor
  · intro hok
    obtain ⟨q, q', c, fs7, fs8, hman, hm, hlook, hA4, hA5, hA6, hA7, hA8,
      hA9, hA10, hA11, hsdel, hsame, hfin⟩ :=
      setupTypeScript_success_char cfg fs hok
    have hfs8 : ∀ p, p ≠ cfg.scriptDir ++ [cfg.scriptName] →
        p ≠ cfg.scriptDir ++ [".DS_store"] →
        fs8.files.lookup p = fs7.files.lookup p := by
      intro p k1 k2
      cases harg : cfg.argvTarget with
      | none =>
        have h8 : (selfDelete cfg fs7).2 = fs8 := by rw [hsdel harg]
        rw [← h8]
        exact selfDelete_lookup_ne cfg fs7 k1 k2
      | some r => rw [hsame r harg]
    refine ⟨c, hlook, ?_, ?_⟩
    · rw [hfin, writeFileSync_lookup_ne (append_root_ne (by decide)),
        mkdirSyncRec_files,
        hfs8 _ (src_path_ne_script cfg "main.js" hdir _)
          (src_path_ne_script cfg "main.js" hdir _)]
      exact hA4
    · rw [hfin, writeFileSync_lookup_ne (append_root_ne (by decide)),
        mkdirSyncRec_files,
        hfs8 _ (src_path_ne_script cfg "main.ts" hdir _)
          (src_path_ne_script cfg "main.ts" hdir _)]
      exact hA5
  · intro q q' hq hmq hmiss
    have hr : readFileSync fs (projectRoot cfg ++ ["package.json"]) =
        .ok (.manifest q) := by
      unfold readFileSync; rw [hq]
    have hren : renameSync
        (writeFileSync fs (projectRoot cfg ++ ["package.json"])
          (.manifest q'))
        (projectRoot cfg ++ ["src", "main.js"])
        (projectRoot cfg ++ ["src", "main.ts"]) = .error "ENOENT" := by
      apply renameSync_err
      rw [writeFileSync_lookup_ne (append_root_ne (by decide))]
      exact hmiss
    have heq : setupTypeScript cfg fs = (some "ENOENT",
        writeFileSync fs (projectRoot cfg ++ ["package.json"])
          (.manifest q')) := by
      simp only [setupTypeScript]; rw [hr]; dsimp only; rw [hmq]
      dsimp only; rw [hren]
    rw [heq]

/-- Witness for the amended rename theorem at a concrete template. -/
theorem main_entry_renamed_witness :
    (cfgTpl.scriptDir ≠ projectRoot cfgTpl ++ ["src"]) ∧
    (((setupTypeScript cfgTpl templateFS).1 = none →
      ∃ c, templateFS.files.lookup
          (projectRoot cfgTpl ++ ["src", "main.js"]) = some c ∧
        (setupTypeScript cfgTpl templateFS).2.files.lookup
          (projectRoot cfgTpl ++ ["src", "main.js"]) = none ∧
        (setupTypeScript cfgTpl templateFS).2.files.lookup
          (projectRoot cfgTpl ++ ["src", "main.ts"]) = some c) ∧
    (∀ q q', templateFS.files.lookup
        (projectRoot cfgTpl ++ ["package.json"]) = some (.manifest q) →
      mergePackageJSON q = .ok q' →
      templateFS.files.lookup
        (projectRoot cfgTpl ++ ["src", "main.js"]) = none →
      (setupTypeScript cfgTpl templateFS).1 = some "ENOENT")) :=
  ⟨by decide, main_entry_renamed cfgTpl templateFS (by decide)⟩

/-- Claim C9: on every successful run — with or without an explicit
target argument (the hypothesis only keeps the script's own directory
distinct from the target's `src` directory, so the self-deletion branch
cannot remove the file again) — the file `src/global.d.ts` exists
afterwards, created or overwritten, with exactly the single reference
line as its content. -/
theorem global_dts_written (cfg : Config) (fs : FS)
    (hdir : cfg.scriptDir ≠ projectRoot cfg ++ ["src"])
    (hok : (setupTypeScript cfg fs).1 = none) :
    (setupTypeScript cfg fs).2.files.lookup
      (projectRoot cfg ++ ["src", "global.d.ts"]) =
      some (.text ("/// <reference types=\"svelte\" />").data) := by
  obtain ⟨q, q', c, fs7, fs8, hman, hm, hlook, hA4, hA5, hA6, hA7, hA8,
    hA9, hA10, hA11, hsdel, hsame, hfin⟩ :=
    setupTypeScript_success_char cfg fs hok
  have hfs8 : fs8.files.lookup (projectRoot cfg ++ ["src", "global.d.ts"]) =
      fs7.files.lookup (projectRoot cfg ++ ["src", "global.d.ts"]) := by
    cases harg : cfg.argvTarget with
    | none =>
      have h8 : (selfDelete cfg fs7).2 = fs8 := by rw [hsdel harg]
      rw [← h8]
      exact selfDelete_lookup_ne cfg fs7
        (src_path_ne_script cfg "global.d.ts" hdir _)
        (src_path_ne_script cfg "global.d.ts" hdir _)
    | some r => rw [hsame r harg]
  rw [hfin, writeFileSync_lookup_ne (append_root_ne (by decide)),
    mkdirSyncRec_files, hfs8, hA6]
  rfl

/-- Witness for the reference-file theorem at a concrete template run. -/
theorem global_dts_written_witness :
    (cfgTpl.scriptDir ≠ projectRoot cfgTpl ++ ["src"]) ∧
    (setupTypeScript cfgTpl templateFS).1 = none ∧
    (setupTypeScript cfgTpl templateFS).2.files.lookup
      (projectRoot cfgTpl ++ ["src", "global.d.ts"]) =
      some (.text ("/// <reference types=\"svelte\" />").data) :=
  ⟨by decide, by decide,
    global_dts_written cfgTpl templateFS (by decide) (by decide)⟩

theorem lookup_isSome_of_mem_keys {α β : Type} [BEq α] [LawfulBEq α]
    {m : List (α × β)} {k : α} (h : k ∈ m.map Prod.fst) :
    (m.lookup k).isSome := by
  induction m with
  | nil => simp at h
  | cons x xs ih =>
    obtain ⟨a, b⟩ := x
    by_cases hk : k = a
    · subst hk; simp [List.lookup]
    · have hbe : (k == a) = false := beq_false_of_ne hk
      rw [List.map_cons, List.mem_cons] at h
      simp only [List.lookup, hbe]
      exact ih (h.resolve_left hk)

theorem lookup_none_of_not_mem_keys {α β : Type} [BEq α] [LawfulBEq α]
    {m : List (α × β)} {k : α} (h : k ∉ m.map Prod.fst) :
    m.lookup k = none := by
  induction m with
  | nil => rfl
  | cons x xs ih =>
    obtain ⟨a, b⟩ := x
    rw [List.map_cons, List.mem_cons, not_or] at h
    have hbe : (k == a) = false := beq_false_of_ne h.1
    simp only [List.lookup, hbe]
    exact ih h.2

/-- A `filterMap` whose function accepts exactly one element of a
duplicate-free list returns exactly that element's image. -/
theorem filterMap_eq_single {α β : Type} {l : List α} {f : α → Option β}
    {a0 : α} {b : β} (hmem : a0 ∈ l) (hf : f a0 = some b)
    (hothers : ∀ a ∈ l, a ≠ a0 → f a = none)
    (hnd : l.Nodup) : l.filterMap f = [b] := by
  induction l with
  | nil => cases hmem
  | cons x xs ih =>
    obtain ⟨hx, hxs⟩ := List.nodup_cons.mp hnd
    rcases List.mem_cons.mp hmem with rfl | hx0
    · rw [List.filterMap_cons_some hf]
      congr 1
      exact List.filterMap_eq_nil_iff.mpr (fun a ha =>
        hothers a (List.mem_cons_of_mem _ ha) (fun he => hx (he ▸ ha)))
    · rw [List.filterMap_cons_none
        (hothers x (List.mem_cons_self x xs)
          (fun he => hx (by rw [he]; exact hx0)))]
      exact ih hx0
        (fun a ha hne => hothers a (List.mem_cons_of_mem _ ha) hne) hxs

theorem map_fst_filter_key {α β : Type} [BEq α] (m : List (α × β)) (s : α) :
    (m.filter (fun r => ! (r.1 == s))).map Prod.fst =
      (m.map Prod.fst).filter (fun p => ! (p == s)) := by
  induction m with
  | nil => rfl
  | cons x xs ih =>
    cases hx : (x.1 == s) <;> simp [List.filter_cons, hx, ih]

theorem childName?_concat (d : List String) (n : String) :
    childName? d (d ++ [n]) = some n := by
  unfold childName?
  rw [List.getLast?_concat]
  dsimp only
  rw [List.dropLast_concat, if_pos rfl]

/-- Claim C8: in the self-deletion branch (run exactly when no
target-directory argument was given), a missing script file makes the
deletion fail fatally with the error propagated and the filesystem
untouched; and when the script file exists, the script directory really
exists and its only entries are the script and possibly one `.DS_store`
file (and file paths are duplicate-free), the branch succeeds, the
script file and the `.DS_store` file are gone afterwards, and the
script directory itself has been removed. -/
theorem self_deletion_branch (cfg : Config) (fs : FS) :
    (fs.files.lookup (cfg.scriptDir ++ [cfg.scriptName]) = none →
      selfDelete cfg fs = (some "ENOENT", fs)) ∧
    ((fs.files.lookup (cfg.scriptDir ++ [cfg.scriptName])).isSome →
      cfg.scriptDir ∈ fs.dirs →
      (∀ p ∈ fs.files.map Prod.fst,
        childName? cfg.scriptDir p = none ∨
        p = cfg.scriptDir ++ [cfg.scriptName] ∨
        p = cfg.scriptDir ++ [".DS_store"]) →
      (∀ d ∈ fs.dirs, childName? cfg.scriptDir d = none) →
      (fs.files.map Prod.fst).Nodup →
      cfg.scriptName ≠ ".DS_store" →
      (selfDelete cfg fs).1 = none ∧
      (selfDelete cfg fs).2.files.lookup
        (cfg.scriptDir ++ [cfg.scriptName]) = none ∧
      (selfDelete cfg fs).2.files.lookup
        (cfg.scriptDir ++ [".DS_store"]) = none ∧
      cfg.scriptDir ∉ (selfDelete cfg fs).2.dirs) := by
  constructor
  · intro hnone
    have hu : unlinkSync fs (cfg.scriptDir ++ [cfg.scriptName]) =
        .error "ENOENT" := by
      unfold unlinkSync
      rw [hnone]
      rfl
    unfold selfDelete
    rw [hu]
  · intro hsome hdmem honly hnodirs hnd hname
    have hST : cfg.scriptDir ++ [cfg.scriptName] ≠
        cfg.scriptDir ++ [".DS_store"] :=
      append_root_ne (fun he => by injection he with h1 h2; exact hname h1)
    have hu : unlinkSync fs (cfg.scriptDir ++ [cfg.scriptName]) =
        .ok { fs with files := fs.files.filter (fun q => ! (q.1 == cfg.scriptDir ++ [cfg.scriptName])) } :=
      unlinkSync_ok hsome
    have hK1 : (fs.files.filter (fun q => ! (q.1 == cfg.scriptDir ++ [cfg.scriptName]))).map Prod.fst =
        (fs.files.map Prod.fst).filter (fun p => ! (p == cfg.scriptDir ++ [cfg.scriptName])) :=
      map_fst_filter_key _ _
    have hdirsFM : fs.dirs.filterMap (childName? cfg.scriptDir) = [] :=
      List.filterMap_eq_nil_iff.mpr hnodirs
    by_cases hT : cfg.scriptDir ++ [".DS_store"] ∈ fs.files.map Prod.fst
    · have hrem : dirEntries { fs with files := fs.files.filter (fun q => ! (q.1 == cfg.scriptDir ++ [cfg.scriptName])) } cfg.scriptDir = [".DS_store"] := by
        unfold dirEntries
        dsimp only
        rw [List.filterMap_append, hdirsFM, List.append_nil, hK1]
        have hTpred : (! (cfg.scriptDir ++ [".DS_store"] == cfg.scriptDir ++ [cfg.scriptName])) = true := by
          rw [beq_false_of_ne (Ne.symm hST)]
          rfl
        refine filterMap_eq_single
          (List.mem_filter.mpr ⟨hT, hTpred⟩)
          (childName?_concat _ _) ?_ (hnd.filter _)
        intro p hp hne
        obtain ⟨hpm, hpred⟩ := List.mem_filter.mp hp
        rcases honly p hpm with hc | hc | hc
        · exact hc
        · rw [hc] at hpred; simp at hpred
        · exact absurd hc hne
      have hrd1 : readdirSync { fs with files := fs.files.filter (fun q => ! (q.1 == cfg.scriptDir ++ [cfg.scriptName])) } cfg.scriptDir = .ok [".DS_store"] := by
        unfold readdirSync
        rw [if_pos hdmem, hrem]
      have hTk1 : cfg.scriptDir ++ [".DS_store"] ∈ (fs.files.filter (fun q => ! (q.1 == cfg.scriptDir ++ [cfg.scriptName]))).map Prod.fst := by
        rw [hK1]
        have hTpred : (! (cfg.scriptDir ++ [".DS_store"] == cfg.scriptDir ++ [cfg.scriptName])) = true := by
          rw [beq_false_of_ne (Ne.symm hST)]
          rfl
        exact List.mem_filter.mpr ⟨hT, hTpred⟩
      have hu2 : unlinkSync { fs with files := fs.files.filter (fun q => ! (q.1 == cfg.scriptDir ++ [cfg.scriptName])) } (cfg.scriptDir ++ [".DS_store"]) =
          .ok { fs with files := (fs.files.filter (fun q => ! (q.1 == cfg.scriptDir ++ [cfg.scriptName]))).filter (fun q => ! (q.1 == cfg.scriptDir ++ [".DS_store"])) } :=
        unlinkSync_ok (lookup_isSome_of_mem_keys hTk1)
      have hK2 : ((fs.files.filter (fun q => ! (q.1 == cfg.scriptDir ++ [cfg.scriptName]))).filter (fun q => ! (q.1 == cfg.scriptDir ++ [".DS_store"]))).map Prod.fst =
          ((fs.files.filter (fun q => ! (q.1 == cfg.scriptDir ++ [cfg.scriptName]))).map Prod.fst).filter (fun p => ! (p == cfg.scriptDir ++ [".DS_store"])) :=
        map_fst_filter_key _ _
      have hrem2 : dirEntries { fs with files := (fs.files.filter (fun q => ! (q.1 == cfg.scriptDir ++ [cfg.scriptName]))).filter (fun q => ! (q.1 == cfg.scriptDir ++ [".DS_store"])) } cfg.scriptDir = [] := by
        unfold dirEntries
        dsimp only
        rw [List.filterMap_append, hdirsFM, List.append_nil, hK2, hK1]
        apply List.filterMap_eq_nil_iff.mpr
        intro p hp
        obtain ⟨hp1, hpredT⟩ := List.mem_filter.mp hp
        obtain ⟨hpm, hpredS⟩ := List.mem_filter.mp hp1
        rcases honly p hpm with hc | hc | hc
        · exact hc
        · rw [hc] at hpredS; simp at hpredS
        · rw [hc] at hpredT; simp at hpredT
      have hrd2 : readdirSync { fs with files := (fs.files.filter (fun q => ! (q.1 == cfg.scriptDir ++ [cfg.scriptName]))).filter (fun q => ! (q.1 == cfg.scriptDir ++ [".DS_store"])) } cfg.scriptDir = .ok [] := by
        unfold readdirSync
        rw [if_pos hdmem, hrem2]
      have hrm : rmdirSync { fs with files := (fs.files.filter (fun q => ! (q.1 == cfg.scriptDir ++ [cfg.scriptName]))).filter (fun q => ! (q.1 == cfg.scriptDir ++ [".DS_store"])) } cfg.scriptDir = .ok { fs with files := (fs.files.filter (fun q => ! (q.1 == cfg.scriptDir ++ [cfg.scriptName]))).filter (fun q => ! (q.1 == cfg.scriptDir ++ [".DS_store"])), dirs := fs.dirs.filter (fun d => ! (d == cfg.scriptDir)) } := by
        unfold rmdirSync
        rw [if_pos hdmem, if_pos hrem2]
      have hsd : selfDelete cfg fs = (none, { fs with files := (fs.files.filter (fun q => ! (q.1 == cfg.scriptDir ++ [cfg.scriptName]))).filter (fun q => ! (q.1 == cfg.scriptDir ++ [".DS_store"])), dirs := fs.dirs.filter (fun d => ! (d == cfg.scriptDir)) }) := by
        unfold selfDelete
        rw [hu]
        dsimp only
        rw [hrd1]
        dsimp only
        rw [if_pos (by decide :
          ([".DS_store"] : List String).length = 1 ∧
          ([".DS_store"] : List String).head? = some ".DS_store")]
        rw [hu2]
        dsimp only
        rw [hrd2]
        dsimp only
        rw [if_pos (by decide : ([] : List String).length = 0)]
        rw [hrm]
      rw [hsd]
      refine ⟨rfl, ?_, ?_, ?_⟩
      · dsimp only
        rw [lookup_filter_ne hST _]
        exact lookup_filter_self _ _
      · dsimp only
        exact lookup_filter_self _ _
      · dsimp only
        intro hmem
        obtain ⟨-, hpred⟩ := List.mem_filter.mp hmem
        simp at hpred
    · have hrem : dirEntries { fs with files := fs.files.filter (fun q => ! (q.1 == cfg.scriptDir ++ [cfg.scriptName])) } cfg.scriptDir = [] := by
        unfold dirEntries
        dsimp only
        rw [List.filterMap_append, hdirsFM, List.append_nil, hK1]
        apply List.filterMap_eq_nil_iff.mpr
        intro p hp
        obtain ⟨hpm, hpredS⟩ := List.mem_filter.mp hp
        rcases honly p hpm with hc | hc | hc
        · exact hc
        · rw [hc] at hpredS; simp at hpredS
        · exact absurd (hc ▸ hpm) hT
      have hrd1 : readdirSync { fs with files := fs.files.filter (fun q => ! (q.1 == cfg.scriptDir ++ [cfg.scriptName])) } cfg.scriptDir = .ok [] := by
        unfold readdirSync
        rw [if_pos hdmem, hrem]
      have hrm : rmdirSync { fs with files := fs.files.filter (fun q => ! (q.1 == cfg.scriptDir ++ [cfg.scriptName])) } cfg.scriptDir = .ok { fs with files := fs.files.filter (fun q => ! (q.1 == cfg.scriptDir ++ [cfg.scriptName])), dirs := fs.dirs.filter (fun d => ! (d == cfg.scriptDir)) } := by
        unfold rmdirSync
        rw [if_pos hdmem, if_pos hrem]
      have hsd : selfDelete cfg fs = (none, { fs with files := fs.files.filter (fun q => ! (q.1 == cfg.scriptDir ++ [cfg.scriptName])), dirs := fs.dirs.filter (fun d => ! (d == cfg.scriptDir)) }) := by
        unfold selfDelete
        rw [hu]
        dsimp only
        rw [hrd1]
        dsimp only
        rw [if_neg (by decide :
          ¬(([] : List String).length = 1 ∧
            ([] : List String).head? = some ".DS_store"))]
        dsimp only
        rw [hrd1]
        dsimp only
        rw [if_pos (by decide : ([] : List String).length = 0)]
        rw [hrm]
      rw [hsd]
      refine ⟨rfl, ?_, ?_, ?_⟩
      · dsimp only
        exact lookup_filter_self _ _
      · dsimp only
        apply lookup_none_of_not_mem_keys
        rw [hK1]
        intro hmem
        exact hT (List.mem_filter.mp hmem).1
      · dsimp only
        intro hmem
        obtain ⟨-, hpred⟩ := List.mem_filter.mp hmem
        simp at hpred

/-- Witness for the self-deletion theorem: the missing-script failure on
the empty filesystem, and the successful double deletion plus directory
removal on the concrete template. -/
theorem self_deletion_branch_witness :
    selfDelete cfgNoArg fsEmpty = (some "ENOENT", fsEmpty) ∧
    ((selfDelete cfgNoArg templateFS).1 = none ∧
     (selfDelete cfgNoArg templateFS).2.files.lookup
       (cfgNoArg.scriptDir ++ [cfgNoArg.scriptName]) = none ∧
     (selfDelete cfgNoArg templateFS).2.files.lookup
       (cfgNoArg.scriptDir ++ [".DS_store"]) = none ∧
     cfgNoArg.scriptDir ∉ (selfDelete cfgNoArg templateFS).2.dirs) :=
  ⟨(self_deletion_branch cfgNoArg fsEmpty).1 (by decide),
   (self_deletion_branch cfgNoArg templateFS).2 (by decide) (by decide)
     (by decide) (by decide) (by decide) (by decide)⟩
